import Mathlib

/-!
Verification of the phantasml vector shape/path tessellation core.

The development is a shallow embedding of the repository's store modules
(`math.js`, `shape.js`, `geometry.js`, `collision.js`) into Lean:

* JavaScript float64 numbers are embedded as exact rationals.
* The transcendental `Math` functions (`cos`, `sin`, `sqrt`, `asin`, `acos`)
  are passed as an oracle record `MathOracle`; theorems quantify over an
  arbitrary oracle and pin down, via hypotheses, only the oracle values the
  statement actually uses.
* Fallible code (a JavaScript `throw`) is embedded with `Except String`.
* Where a computation can produce a non-finite JavaScript number
  (`NaN`/`Infinity`, from division by zero), the embedded value lives in
  `Option ℚ`, with `none` standing for a non-finite number.
-/

set_option autoImplicit false

namespace Phantasml

/-- A point in the plane: the source's `Vector2 = {x: number, y: number}`,
with exact rational coordinates in place of float64. -/
abbrev Pt := ℚ × ℚ

/-- Oracle record standing for the transcendental functions of the JavaScript
`Math` object.  Theorems below hold for every oracle, hence in particular for
the true `Math.cos`/`Math.sin`/`Math.sqrt`/`Math.asin`/`Math.acos`. -/
structure MathOracle where
  cos : ℚ → ℚ
  sin : ℚ → ℚ
  sqrt : ℚ → ℚ
  asin : ℚ → ℚ
  acos : ℚ → ℚ

/-- A concrete oracle used by the closed witness and counterexample
statements.  Wherever the truth value of one of those statements depends on
an oracle value, the value supplied here is the exact value of the real
function at that argument: cos 0 = 1, sin 0 = 0, sqrt 0 = 0, sqrt 4 = 2,
sqrt 100 = 10, asin 0 = 0.  The value at asin 1 is the rational
approximation 1.57 of pi/2; the only fact about it a statement relies on is
1 < asin 1, which is true of `Math.asin(1)` as well. -/
def mathDemo : MathOracle where
  cos := fun _ => 1
  sin := fun _ => 0
  sqrt := fun q => if q = 100 then 10 else if q = 4 then 2 else 0
  asin := fun q => if q = 1 then 157 / 100 else 0
  acos := fun q => if q = 0 then 157 / 100 else 0

/-- math.js `distance(from, to)`: `Math.sqrt(vx * vx + vy * vy)`. -/
def distance (ml : MathOracle) (p q : Pt) : ℚ :=
  ml.sqrt ((q.1 - p.1) * (q.1 - p.1) + (q.2 - p.2) * (q.2 - p.2))

/-- math.js `clamp(value, min, max)`. -/
def clamp (value lo hi : ℚ) : ℚ :=
  if value < lo then lo else if hi < value then hi else value

/-- math.js `mix(start, end, parameter)`. -/
def mix (s e t : ℚ) : ℚ := s + t * (e - s)

/-- math.js `dot(first, second)`. -/
def dot (a b : Pt) : ℚ := a.1 * b.1 + a.2 * b.2

/-- math.js `cross(first, second)`. -/
def cross (a b : Pt) : ℚ := a.1 * b.2 - a.2 * b.1

/-- math.js `minus(first, second)` (pure, allocating form). -/
def minus (a b : Pt) : Pt := (a.1 - b.1, a.2 - b.2)

/-- math.js `plus(first, second)`. -/
def plus (a b : Pt) : Pt := (a.1 + b.1, a.2 + b.2)

/-- math.js `times(vector, scalar)`. -/
def times (v : Pt) (s : ℚ) : Pt := (v.1 * s, v.2 * s)

/-- math.js `orthogonalize(vector)`: rotate ninety degrees CCW. -/
def orthogonalize (v : Pt) : Pt := (-v.2, v.1)

/-- math.js `normalize(vector)`: the length comes from the sqrt oracle and
the source maps a zero length to the scale factor 0. -/
def normalize (ml : MathOracle) (v : Pt) : Pt :=
  let len := ml.sqrt (dot v v)
  times v (if len = 0 then 0 else 1 / len)

/-- math.js `orthonormalize(vector)`. -/
def orthonormalize (ml : MathOracle) (v : Pt) : Pt :=
  normalize ml (orthogonalize v)

/-- A plane (line) `{normal, constant}` as in math.js. -/
structure PlaneQ where
  normal : Pt
  constant : ℚ

/-- math.js `planeFromPoints(first, second)`. -/
def planeFromPoints (ml : MathOracle) (a b : Pt) : PlaneQ :=
  let n := orthonormalize ml (minus b a)
  { normal := n, constant := -(dot n a) }

/-- math.js `planeFromPointNormal(point, normal)`. -/
def planeFromPointNormal (p n : Pt) : PlaneQ :=
  { normal := n, constant := -(dot n p) }

/-- math.js `signedDistance(plane, point)`. -/
def signedDistance (pl : PlaneQ) (p : Pt) : ℚ :=
  dot pl.normal p + pl.constant

/-- Column-major 3x3 matrix: the source's 9-element `matrix` array, with
`mI` standing for `matrix[I]`. -/
@[ext]
structure Mat3 where
  m0 : ℚ
  m1 : ℚ
  m2 : ℚ
  m3 : ℚ
  m4 : ℚ
  m5 : ℚ
  m6 : ℚ
  m7 : ℚ
  m8 : ℚ
deriving DecidableEq

/-- math.js `IDENTITY_MATRIX`. -/
def identityMat3 : Mat3 := ⟨1, 0, 0, 0, 1, 0, 0, 0, 1⟩

/-- The record behind the source's `Transform` type: optional translation,
rotation, scale and cached matrix.  A JavaScript `null`/`undefined` transform
is `none` at the outer `Option` of `TransformQ`. -/
structure TransformRec where
  translation : Option Pt
  rotation : Option ℚ
  scale : Option Pt
  matrix : Option Mat3

/-- The source's nullable `Transform`. -/
abbrev TransformQ := Option TransformRec

/-- A transform holding only a matrix, as returned by `invertTransform` and
`composeTransforms`. -/
def matrixTransform (m : Mat3) : TransformRec :=
  { translation := none, rotation := none, scale := none, matrix := some m }

/-- math.js `getTransformMatrix` (lines 155-186).  A present `matrix` field
is returned as-is; otherwise the matrix is built from the fields with
`tx || 0`, `ty || 0`, absent scale component defaulting to 1
(`sx == null ? 1.0 : sx`), `rotation || 0`, and sine signs
`[cr*sx, sr*sx, 0, -sr*sy, cr*sy, 0, tx, ty, 1]`.  The source caches the
built matrix on the transform object; the embedding is the pure value. -/
def getTransformMatrix (ml : MathOracle) (t : TransformQ) : Mat3 :=
  match t with
  | none => identityMat3
  | some tr =>
    match tr.matrix with
    | some m => m
    | none =>
      let tx := match tr.translation with | some v => v.1 | none => 0
      let ty := match tr.translation with | some v => v.2 | none => 0
      let sx := match tr.scale with | some v => v.1 | none => 1
      let sy := match tr.scale with | some v => v.2 | none => 1
      let r := match tr.rotation with | some a => a | none => 0
      let cr := ml.cos r
      let sr := ml.sin r
      ⟨cr * sx, sr * sx, 0, -sr * sy, cr * sy, 0, tx, ty, 1⟩

/-- The second copy of `getTransformMatrix`, from the math module embedded at
the end of geometry.js (lines 274-305).  It differs from the math.js version
in two places: an absent scale component defaults to 0 (`sx = sx || 0`), and
the sine terms are placed as `[cr*sx, -sr*sx, 0, sr*sy, cr*sy, 0, ...]`. -/
def getTransformMatrixGeo (ml : MathOracle) (t : TransformQ) : Mat3 :=
  match t with
  | none => identityMat3
  | some tr =>
    match tr.matrix with
    | some m => m
    | none =>
      let tx := match tr.translation with | some v => v.1 | none => 0
      let ty := match tr.translation with | some v => v.2 | none => 0
      let sx := match tr.scale with | some v => v.1 | none => 0
      let sy := match tr.scale with | some v => v.2 | none => 0
      let r := match tr.rotation with | some a => a | none => 0
      let cr := ml.cos r
      let sr := ml.sin r
      ⟨cr * sx, -sr * sx, 0, sr * sy, cr * sy, 0, tx, ty, 1⟩

/-- The determinant expression of math.js `invertTransform` (lines 28-31). -/
def detMat3 (m : Mat3) : ℚ :=
  m.m0 * (m.m4 * m.m8 - m.m5 * m.m7) +
    m.m1 * (m.m5 * m.m6 - m.m3 * m.m8) +
    m.m2 * (m.m3 * m.m7 - m.m4 * m.m6)

/-- The inverse matrix built by math.js `invertTransform` (lines 36-51),
entry by entry, with `scale = 1 / determinant`. -/
def invMat3 (m : Mat3) : Mat3 :=
  let scale := 1 / detMat3 m
  ⟨(m.m4 * m.m8 - m.m7 * m.m5) * scale,
    (m.m7 * m.m2 - m.m1 * m.m8) * scale,
    (m.m1 * m.m5 - m.m4 * m.m2) * scale,
    (m.m6 * m.m5 - m.m3 * m.m8) * scale,
    (m.m0 * m.m8 - m.m6 * m.m2) * scale,
    (m.m3 * m.m2 - m.m0 * m.m5) * scale,
    (m.m3 * m.m7 - m.m6 * m.m4) * scale,
    (m.m6 * m.m1 - m.m0 * m.m7) * scale,
    (m.m0 * m.m4 - m.m3 * m.m1) * scale⟩

/-- math.js `invertTransform` (lines 22-52): a falsy transform is returned
unchanged, a singular matrix gives `null`, otherwise a matrix-only transform
holding the inverse. -/
def invertTransform (ml : MathOracle) (t : TransformQ) : TransformQ :=
  match t with
  | none => none
  | some tr =>
    let m := getTransformMatrix ml (some tr)
    if detMat3 m = 0 then none
    else some (matrixTransform (invMat3 m))

/-- The matrix product written out in math.js `composeTransforms`
(lines 124-139): column-major product `m2 * m1`. -/
def mulMat3 (a b : Mat3) : Mat3 :=
  ⟨a.m0 * b.m0 + a.m3 * b.m1 + a.m6 * b.m2,
    a.m1 * b.m0 + a.m4 * b.m1 + a.m7 * b.m2,
    a.m2 * b.m0 + a.m5 * b.m1 + a.m8 * b.m2,
    a.m0 * b.m3 + a.m3 * b.m4 + a.m6 * b.m5,
    a.m1 * b.m3 + a.m4 * b.m4 + a.m7 * b.m5,
    a.m2 * b.m3 + a.m5 * b.m4 + a.m8 * b.m5,
    a.m0 * b.m6 + a.m3 * b.m7 + a.m6 * b.m8,
    a.m1 * b.m6 + a.m4 * b.m7 + a.m7 * b.m8,
    a.m2 * b.m6 + a.m5 * b.m7 + a.m8 * b.m8⟩

/-- math.js `composeTransforms(second, first)` (lines 112-140). -/
def composeTransforms (ml : MathOracle) (second first : TransformQ) : TransformQ :=
  match second with
  | none => first
  | some s =>
    match first with
    | none => some s
    | some f =>
      some (matrixTransform
        (mulMat3 (getTransformMatrix ml (some s)) (getTransformMatrix ml (some f))))

/-- Retrieving the matrix of a matrix-only transform returns it as-is. -/
theorem getTransformMatrix_matrix (ml : MathOracle) (m : Mat3) :
    getTransformMatrix ml (some (matrixTransform m)) = m := rfl

/-- The adjugate-based inverse of the source really is a right inverse:
multiplying a matrix by the `invertTransform` matrix gives the identity
whenever the determinant is nonzero (exact arithmetic). -/
theorem mulMat3_invMat3 (m : Mat3) (h : detMat3 m ≠ 0) :
    mulMat3 m (invMat3 m) = identityMat3 := by
  have hd : detMat3 m ≠ 0 := h
  simp only [detMat3] at hd
  ext <;> simp only [mulMat3, invMat3, identityMat3, detMat3] <;>
    field_simp <;> ring

/-- The determinant of the identity matrix is one. -/
theorem detMat3_identity : detMat3 identityMat3 = 1 := by
  norm_num [detMat3, identityMat3]

/-- Inverting the identity matrix gives the identity matrix. -/
theorem invMat3_identity : invMat3 identityMat3 = identityMat3 := by
  simp only [invMat3, detMat3, identityMat3]
  ext <;> norm_num

/-- C6: for every transform T whose 3x3 matrix has nonzero determinant,
invertTransform(composeTransforms(T, invertTransform(T))) is the identity
transform: its matrix equals the identity matrix (exact arithmetic). -/
theorem c6_invert_compose_roundtrip (ml : MathOracle) (t : TransformQ)
    (h : detMat3 (getTransformMatrix ml t) ≠ 0) :
    getTransformMatrix ml
      (invertTransform ml (composeTransforms ml t (invertTransform ml t))) =
      identityMat3 := by
  match t with
  | none => rfl
  | some tr =>
    set m := getTransformMatrix ml (some tr) with hm
    have hinv : invertTransform ml (some tr) = some (matrixTransform (invMat3 m)) := by
      simp only [invertTransform, ← hm, if_neg h]
    rw [hinv]
    have hprod :
        composeTransforms ml (some tr) (some (matrixTransform (invMat3 m))) =
          some (matrixTransform identityMat3) := by
      simp only [composeTransforms]
      rw [show getTransformMatrix ml (some (matrixTransform (invMat3 m))) =
            invMat3 m from rfl, ← hm, mulMat3_invMat3 m h]
    rw [hprod]
    simp only [invertTransform, getTransformMatrix_matrix, detMat3_identity,
      one_ne_zero, if_false, invMat3_identity]

/-- Witness for C6 at the concrete transform holding the identity matrix. -/
theorem c6_witness :
    detMat3 (getTransformMatrix mathDemo (some (matrixTransform identityMat3))) ≠ 0 ∧
      getTransformMatrix mathDemo
        (invertTransform mathDemo
          (composeTransforms mathDemo (some (matrixTransform identityMat3))
            (invertTransform mathDemo (some (matrixTransform identityMat3))))) =
        identityMat3 :=
  ⟨by rw [getTransformMatrix_matrix, detMat3_identity]; norm_num,
    c6_invert_compose_roundtrip mathDemo (some (matrixTransform identityMat3))
      (by rw [getTransformMatrix_matrix, detMat3_identity]; norm_num)⟩

/-- C10 counterexample: on the empty transform record (no translation, no
rotation, no scale, no cached matrix) the math.js implementation produces the
identity matrix (absent scale defaults to 1) while the geometry.js copy
produces a matrix whose upper block is zero (absent scale defaults to 0), so
the two implementations are not equivalent.  The oracle values used are
cos 0 = 1 and sin 0 = 0, the exact values of the real functions. -/
theorem c10_counterexample :
    getTransformMatrix mathDemo (some ⟨none, none, none, none⟩) ≠
      getTransformMatrixGeo mathDemo (some ⟨none, none, none, none⟩) := by
  simp only [getTransformMatrix, getTransformMatrixGeo, mathDemo, Mat3.mk.injEq]
  norm_num

/-- C10 (amended): the two `getTransformMatrix` implementations differ on the
default scale (1 in math.js, 0 in the geometry.js copy) and transpose the
sign placement of the sine terms; on a field-based transform carrying an
explicit scale they return the same matrix exactly when (if and only if)
both sine products sin(rotation) * sx and sin(rotation) * sy vanish — in
particular, whenever one of the products is nonzero the two matrices
differ. -/
theorem c10_agreement_with_explicit_scale (ml : MathOracle) (tr : TransformRec)
    (sx sy : ℚ) (hm : tr.matrix = none) (hs : tr.scale = some (sx, sy)) :
    getTransformMatrix ml (some tr) = getTransformMatrixGeo ml (some tr) ↔
      ml.sin (tr.rotation.getD 0) * sx = 0 ∧
        ml.sin (tr.rotation.getD 0) * sy = 0 := by
  have hr : (match tr.rotation with | some a => a | none => 0) = tr.rotation.getD 0 := by
    cases tr.rotation <;> rfl
  simp only [getTransformMatrix, getTransformMatrixGeo, hm, hs, hr]
  rw [Mat3.mk.injEq]
  constructor
  · rintro ⟨h0, h1, h2, h3, h4, h5, h6, h7, h8⟩
    exact ⟨by linear_combination h1 / 2, by linear_combination -h3 / 2⟩
  · rintro ⟨hx, hy⟩
    exact ⟨rfl, by linear_combination 2 * hx, rfl, by linear_combination -2 * hy,
      rfl, rfl, rfl, rfl, rfl⟩

/-- Witness for C10's amended agreement statement: at scale (2, 3) with
rotation zero (sin 0 = 0, the exact value of the real function) both sine
products vanish and the two implementations produce the same matrix, by the
right-to-left direction of the equivalence. -/
theorem c10_agreement_witness :
    ((⟨none, some 0, some (2, 3), none⟩ : TransformRec).matrix = none ∧
        (⟨none, some 0, some (2, 3), none⟩ : TransformRec).scale = some (2, 3)) ∧
      getTransformMatrix mathDemo (some ⟨none, some 0, some (2, 3), none⟩) =
        getTransformMatrixGeo mathDemo (some ⟨none, some 0, some (2, 3), none⟩) :=
  ⟨⟨rfl, rfl⟩,
    (c10_agreement_with_explicit_scale mathDemo ⟨none, some 0, some (2, 3), none⟩
        2 3 rfl rfl).mpr
      ⟨by norm_num [mathDemo], by norm_num [mathDemo]⟩⟩

/-- shape.js `ArcTo._getDivisions` (lines 487-495): with no previous command
the result is 1; otherwise `Math.ceil(length * tessellation)` where the arc
length comes from the chord via
`2 * radius * Math.asin(clamp(height / radius, -1, 1))`.  Note there is no
minimum clamp on the ceiling. -/
def arcToGetDivisions (ml : MathOracle) (tessellation : ℚ) (previous : Option Pt)
    (dest : Pt) (radius : ℚ) : ℤ :=
  match previous with
  | none => 1
  | some p =>
    let height := distance ml p dest / 2
    let len := 2 * radius * ml.asin (clamp (height / radius) (-1) 1)
    Int.ceil (len * tessellation)

/-- part_003 `ArcTo._getArcParameters` (lines 755-764): the same arc length
formula, returning the pair (length, divisions); its callers guarantee a
previous command exists. -/
def arcToGetArcParameters (ml : MathOracle) (tessellation : ℚ)
    (previousDest dest : Pt) (radius : ℚ) : ℚ × ℤ :=
  let height := distance ml previousDest dest / 2
  let len := 2 * radius * ml.asin (clamp (height / radius) (-1) 1)
  (len, Int.ceil (len * tessellation))

/-- C1 counterexample: an ArcTo whose destination equals the previous
endpoint, with previous command present, radius 1 and tessellation density 4,
produces a division count of 0, not the claimed minimum of 1.  The oracle
values used are sqrt 0 = 0 and asin 0 = 0, the exact real values. -/
theorem c1_counterexample :
    arcToGetDivisions mathDemo 4 (some (0, 0)) (0, 0) 1 = 0 ∧
      arcToGetDivisions mathDemo 4 (some (0, 0)) (0, 0) 1 ≠ 1 := by
  have h : arcToGetDivisions mathDemo 4 (some (0, 0)) (0, 0) 1 = 0 := by
    norm_num [arcToGetDivisions, distance, clamp, mathDemo]
  exact ⟨h, by rw [h]; norm_num⟩

/-- C1 (amended): when a previous command exists the division count is
`ceil(arcLength * tessellationDensity)` with no minimum clamp (the fixed
value 1 applies only when there is no previous command); in particular an
ArcTo whose destination equals the previous endpoint, with any nonzero
radius and any tessellation density, produces a division count of 0 in both
`ArcTo._getDivisions` (shape.js) and `ArcTo._getArcParameters` (part_003). -/
theorem c1_zero_chord_divisions (ml : MathOracle) (tessellation radius : ℚ) (p : Pt)
    (hsqrt : ml.sqrt 0 = 0) (hasin : ml.asin 0 = 0) (hr : radius ≠ 0) :
    arcToGetDivisions ml tessellation (some p) p radius = 0 ∧
      (arcToGetArcParameters ml tessellation p p radius).2 = 0 := by
  have hdist : distance ml p p = 0 := by
    simp [distance, hsqrt]
  have hlen : (2 : ℚ) * radius * ml.asin (clamp (distance ml p p / 2 / radius) (-1) 1) = 0 := by
    rw [hdist]
    norm_num [clamp, hasin]
  constructor <;> simp [arcToGetDivisions, arcToGetArcParameters, hlen]

/-- Witness for C1's amended statement at radius 1, density 4, point (0,0). -/
theorem c1_zero_chord_witness :
    (mathDemo.sqrt 0 = 0 ∧ mathDemo.asin 0 = 0 ∧ (1 : ℚ) ≠ 0) ∧
      arcToGetDivisions mathDemo 4 (some ((0 : ℚ), (0 : ℚ))) ((0 : ℚ), (0 : ℚ)) 1 = 0 ∧
        (arcToGetArcParameters mathDemo 4 ((0 : ℚ), (0 : ℚ)) ((0 : ℚ), (0 : ℚ)) 1).2 = 0 :=
  ⟨⟨by norm_num [mathDemo], by norm_num [mathDemo], by norm_num⟩,
    c1_zero_chord_divisions mathDemo 4 1 ((0 : ℚ), (0 : ℚ))
      (by norm_num [mathDemo]) (by norm_num [mathDemo]) (by norm_num)⟩

/-- Modelled from the spec: collision.js imports `squareDistance` from the
math module, but the math.js in the sources does not define it (it is code of
the repository missing from src/).  Following the spec's closest-point
distance description, it is the squared Euclidean distance between two
points. -/
def squareDistance (p q : Pt) : ℚ :=
  (q.1 - p.1) * (q.1 - p.1) + (q.2 - p.2) * (q.2 - p.2)

/-- collision.js `CollisionPath`: `{firstIndex, lastIndex, loop}`. -/
structure CollisionPath where
  firstIndex : ℕ
  lastIndex : ℕ
  loop : Bool

/-- collision.js `CollisionPolygon`: `{indices}`. -/
structure CollisionPolygon where
  indices : List ℕ

/-- collision.js `CollisionGeometry`: the vertex buffer together with the
attribute size map (an insertion-ordered name-to-size list, from which the
constructor folds up the attribute offsets and vertex size), the paths and
the convex polygons. -/
structure CollisionGeometry where
  arrayBuffer : List ℚ
  attributeSizes : List (String × ℕ)
  paths : List CollisionPath
  polygons : List CollisionPolygon

/-- The attribute offset fold of the `CollisionGeometry` constructor
(collision.js lines 47-52): each attribute's offset is the sum of the sizes
of the attributes before it in insertion order. -/
def attributeOffset (sizes : List (String × ℕ)) (name : String) : ℕ :=
  match sizes with
  | [] => 0
  | (n, s) :: rest => if n = name then 0 else s + attributeOffset rest name

/-- The vertex size computed by the `CollisionGeometry` constructor: the sum
of all attribute sizes. -/
def vertexSizeOf (sizes : List (String × ℕ)) : ℕ :=
  (sizes.map (·.2)).sum

/-- Reading the vertex buffer.  An out-of-range read of a JavaScript typed
array yields `undefined`; every use below feeds the read into arithmetic
where the geometry under test keeps all indices in range, so the default 0
is never observed by the theorems. -/
def bufferRead (g : CollisionGeometry) (i : ℕ) : ℚ :=
  g.arrayBuffer.getD i 0

/-- collision.js `_getVertexThickness` (lines 159-168): returns the vertex
position along with the thickness attribute of the indexed vertex. -/
def getVertexThickness (g : CollisionGeometry) (index : ℕ) : Pt × ℚ :=
  let arrayIndex := index * vertexSizeOf g.attributeSizes
  let vertexIndex := arrayIndex + attributeOffset g.attributeSizes "vertex"
  ((bufferRead g vertexIndex, bufferRead g (vertexIndex + 1)),
    bufferRead g (arrayIndex + attributeOffset g.attributeSizes "thickness"))

/-- The per-segment test of `intersectsPoint` (collision.js lines 79-99):
closest-point distance to the capsule spanned by the two vertices with
linearly interpolated thickness. -/
def segmentHit (ml : MathOracle) (g : CollisionGeometry) (point : Pt)
    (fromIndex toIndex : ℕ) : Bool :=
  let fv := getVertexThickness g fromIndex
  let tv := getVertexThickness g toIndex
  let squareLength := squareDistance fv.1 tv.1
  let v1 := minus point fv.1
  let v2 := minus tv.1 fv.1
  let dp := dot v1 v2
  if dp ≤ 0 then decide (distance ml point fv.1 ≤ fv.2)
  else if squareLength ≤ dp then decide (distance ml point tv.1 ≤ tv.2)
  else
    let t := dp / squareLength
    let thickness := mix fv.2 tv.2 t
    decide (|cross v1 v2| ≤ thickness * ml.sqrt squareLength)

/-- The per-path test of `intersectsPoint` (collision.js lines 65-101):
single-point paths test the distance to the lone vertex; otherwise every
span of the path is tested, with the final span wrapping to the first vertex
for loops. -/
def pathHit (ml : MathOracle) (g : CollisionGeometry) (point : Pt)
    (path : CollisionPath) : Bool :=
  if path.lastIndex = path.firstIndex + 1 then
    let v := getVertexThickness g path.firstIndex
    decide (distance ml point v.1 ≤ v.2)
  else
    let finalIndex := path.lastIndex - 1
    let endIndex := if path.loop then path.lastIndex else finalIndex
    (List.range (endIndex - path.firstIndex)).any fun k =>
      let fromIndex := path.firstIndex + k
      let toIndex := if fromIndex = finalIndex then path.firstIndex else fromIndex + 1
      segmentHit ml g point fromIndex toIndex

/-- The edge test in the polygon part of `intersectsPoint` (collision.js
lines 112-128), applied to the first edge whose cross product is
nonnegative. -/
def polygonEdgeHit (ml : MathOracle) (g : CollisionGeometry) (point : Pt)
    (fromIndex toIndex : ℕ) : Bool :=
  let fv := getVertexThickness g fromIndex
  let tv := getVertexThickness g toIndex
  let v1 := minus point fv.1
  let v2 := minus tv.1 fv.1
  let cp := cross v1 v2
  let squareLength := squareDistance fv.1 tv.1
  let dp := dot v1 v2
  if dp ≤ 0 then decide (distance ml point fv.1 ≤ fv.2)
  else if squareLength ≤ dp then decide (distance ml point tv.1 ≤ tv.2)
  else
    let t := dp / squareLength
    let thickness := mix fv.2 tv.2 t
    decide (cp ≤ thickness * ml.sqrt squareLength)

/-- The per-polygon test of `intersectsPoint` (collision.js lines 102-133):
the first edge with nonnegative cross product is distance-tested and then
the loop continues with the next polygon; if no edge has nonnegative cross
product the point is strictly inside and the result is true. -/
def polygonHit (ml : MathOracle) (g : CollisionGeometry) (point : Pt)
    (polygon : CollisionPolygon) : Bool :=
  let edges := (List.range polygon.indices.length).map fun ii =>
    (polygon.indices.getD ii 0, polygon.indices.getD ((ii + 1) % polygon.indices.length) 0)
  match edges.find? (fun e =>
      let fv := getVertexThickness g e.1
      let tv := getVertexThickness g e.2
      decide (0 ≤ cross (minus point fv.1) (minus tv.1 fv.1))) with
  | some e => polygonEdgeHit ml g point e.1 e.2
  | none => true

/-- collision.js `intersectsPoint` (lines 64-135). -/
def intersectsPoint (ml : MathOracle) (g : CollisionGeometry) (point : Pt) : Bool :=
  g.paths.any (pathHit ml g point) || g.polygons.any (polygonHit ml g point)

/-- collision.js `getPolygonDistance` (lines 171-191): distance from a query
polygon's boundary to a vertex, or 0 when the vertex is inside. -/
def getPolygonDistance (ml : MathOracle) (points : List Pt) (vertex : Pt) : ℚ :=
  let edges := (List.range points.length).map fun ii =>
    (points.getD ii (0, 0), points.getD ((ii + 1) % points.length) (0, 0))
  match edges.find? (fun e => decide (0 ≤ cross (minus vertex e.1) (minus e.2 e.1))) with
  | none => 0
  | some e =>
    let squareLength := squareDistance e.1 e.2
    let dp := dot (minus vertex e.1) (minus e.2 e.1)
    if dp ≤ 0 then distance ml vertex e.1
    else if squareLength ≤ dp then distance ml vertex e.2
    else cross (minus vertex e.1) (minus e.2 e.1) / ml.sqrt squareLength

/-- collision.js `intersectsConvexPolygon` (lines 143-157), exactly as
written: only single-point paths are tested against the query polygon; the
body of the loop over multi-vertex paths does nothing after the single-point
branch, and the loop over the geometry's polygons has an empty body. -/
def intersectsConvexPolygon (ml : MathOracle) (g : CollisionGeometry)
    (points : List Pt) : Bool :=
  g.paths.any fun path =>
    if path.lastIndex = path.firstIndex + 1 then
      let v := getVertexThickness g path.firstIndex
      decide (getPolygonDistance ml points v.1 ≤ v.2)
    else false

/-- The C3 geometry: a single two-vertex straight span from (0,0) to (10,0)
with the thickness attribute `th` at both endpoints; attribute layout
vertex at offset 0 (size 2), thickness at offset 2 (size 1). -/
def strokeGeometry (th : ℚ) : CollisionGeometry :=
  { arrayBuffer := [0, 0, th, 10, 0, th]
    attributeSizes := [("vertex", 2), ("thickness", 1)]
    paths := [⟨0, 2, false⟩]
    polygons := [] }

/-- Evaluation of the two vertices of the C3 stroke geometry. -/
theorem strokeGeometry_vertex0 (th : ℚ) :
    getVertexThickness (strokeGeometry th) 0 = ((0, 0), th) := by
  simp [getVertexThickness, strokeGeometry, vertexSizeOf, attributeOffset, bufferRead]

/-- Evaluation of the second vertex of the C3 stroke geometry. -/
theorem strokeGeometry_vertex1 (th : ℚ) :
    getVertexThickness (strokeGeometry th) 1 = ((10, 0), th) := by
  simp [getVertexThickness, strokeGeometry, vertexSizeOf, attributeOffset, bufferRead]

/-- Shared evaluation lemma: on the C3 stroke geometry the point test at
(5, y) reduces to comparing the perpendicular distance against the thickness
attribute itself. -/
theorem intersectsPoint_strokeGeometry (ml : MathOracle) (th y : ℚ)
    (hsqrt : ml.sqrt 100 = 10) :
    intersectsPoint ml (strokeGeometry th) (5, y) = decide (|y| ≤ th) := by
  have hseg : segmentHit ml (strokeGeometry th) (5, y) 0 1 =
      decide (|y| ≤ th) := by
    rw [segmentHit, strokeGeometry_vertex0, strokeGeometry_vertex1]
    have hsq : squareDistance ((0 : ℚ), (0 : ℚ)) ((10 : ℚ), (0 : ℚ)) = 100 := by
      norm_num [squareDistance]
    have hdp : dot (minus ((5 : ℚ), y) ((0 : ℚ), (0 : ℚ)))
        (minus ((10 : ℚ), (0 : ℚ)) ((0 : ℚ), (0 : ℚ))) = 50 := by
      norm_num [dot, minus]
    simp only [hsq, hdp, hsqrt]
    norm_num [mix, cross, minus]
    rw [abs_mul]
    norm_num
  have hpaths : (strokeGeometry th).paths = [⟨0, 2, false⟩] := rfl
  have hpolys : (strokeGeometry th).polygons = [] := rfl
  rw [intersectsPoint, hpaths, hpolys]
  simp only [List.any_cons, List.any_nil, Bool.or_false]
  rw [pathHit]
  norm_num
  rw [show List.range 1 = [0] from rfl]
  simp only [List.any_cons, List.any_nil, Bool.or_false]
  norm_num
  exact hseg

/-- C3 (amended): for the single straight span from (0,0) to (10,0) with the
per-vertex thickness attribute th at both endpoints, the point-in-stroke test
at (5, y) accepts exactly the points whose perpendicular distance from the
span is at most the thickness attribute th itself (the stroke's half-width),
not th/2: in particular it accepts (5, th - 0.001) and rejects
(5, th + 0.001) for positive th. -/
theorem c3_stroke_point_test (ml : MathOracle) (th y : ℚ)
    (hsqrt : ml.sqrt 100 = 10) :
    intersectsPoint ml (strokeGeometry th) (5, y) = true ↔ |y| ≤ th := by
  rw [intersectsPoint_strokeGeometry ml th y hsqrt]
  simp

/-- Witness for C3's amended statement: th = 1/5, y = 1/10; the oracle value
used is sqrt 100 = 10, the exact real value. -/
theorem c3_stroke_point_witness :
    mathDemo.sqrt 100 = 10 ∧
      (intersectsPoint mathDemo (strokeGeometry (1 / 5)) (5, 1 / 10) = true ↔
        |(1 / 10 : ℚ)| ≤ 1 / 5) :=
  ⟨by norm_num [mathDemo], c3_stroke_point_test mathDemo (1 / 5) (1 / 10)
    (by norm_num [mathDemo])⟩

/-- C3 counterexample: with thickness attribute th = 0.2 the claim asserts
that intersectsPoint at (5, th/2 + 0.001) = (5, 0.101) is false, but the
code returns true (0.101 is within the full thickness 0.2).  The oracle
value used is sqrt 100 = 10, the exact real value. -/
theorem c3_counterexample :
    intersectsPoint mathDemo (strokeGeometry (1 / 5)) (5, 101 / 1000) = true := by
  rw [intersectsPoint_strokeGeometry mathDemo (1 / 5) (101 / 1000)
    (by norm_num [mathDemo])]
  rw [show |(101 / 1000 : ℚ)| = 101 / 1000 from abs_of_pos (by norm_num)]
  norm_num

/-- C4: evaluation at the failing input.  The stroke geometry holds one
two-vertex span from (0,0) to (10,0) with thickness 0.2, and the query
polygon is the unit square centered at (5,0), which the stroke passes
through: the point test confirms the overlap (the stroke midpoint (5,0) is a
hit), yet intersectsConvexPolygon returns false, because the function tests
only single-point paths against the query polygon — its loop over
multi-vertex paths does nothing and its loop over polygon entries has an
empty body.  The oracle value used is sqrt 100 = 10, the exact real value. -/
theorem c4_polygon_test_misses_span :
    intersectsConvexPolygon mathDemo (strokeGeometry (1 / 5))
        [(4, -1), (6, -1), (6, 1), (4, 1)] = false ∧
      intersectsPoint mathDemo (strokeGeometry (1 / 5)) (5, 0) = true := by
  constructor
  · have hpaths : (strokeGeometry (1 / 5)).paths = [⟨0, 2, false⟩] := rfl
    rw [intersectsConvexPolygon, hpaths]
    norm_num
  · rw [intersectsPoint_strokeGeometry mathDemo (1 / 5) 0 (by norm_num [mathDemo])]
    norm_num

/-- A vertex attribute value: a number or an array of numbers, as in the
source's `VertexAttributes` map type. -/
inductive AttrValue where
  | num (q : ℚ)
  | arr (l : List ℚ)

/-- The component count of an attribute value: arrays contribute their
length, scalars contribute 1 (part_003 lines 368-369). -/
def AttrValue.len : AttrValue → ℕ
  | num _ => 1
  | arr l => l.length

/-- An insertion-ordered attribute map. -/
abbrev Attrs := List (String × AttrValue)

/-- part_003's `PathCommand` variants (MoveTo, LineTo, ArcTo, CurveTo), each
carrying a destination, a z order and an attribute map. -/
inductive PathCommand where
  | moveTo (dest : Pt) (zOrder : ℚ) (attrs : Attrs)
  | lineTo (dest : Pt) (zOrder : ℚ) (attrs : Attrs)
  | arcTo (dest : Pt) (radius : ℚ) (zOrder : ℚ) (attrs : Attrs)
  | curveTo (dest : Pt) (c1 c2 : Pt) (zOrder : ℚ) (attrs : Attrs)

/-- The destination point of a command. -/
def PathCommand.dest : PathCommand → Pt
  | .moveTo d _ _ => d
  | .lineTo d _ _ => d
  | .arcTo d _ _ _ => d
  | .curveTo d _ _ _ _ => d

/-- The attribute map of a command. -/
def PathCommand.attrs : PathCommand → Attrs
  | .moveTo _ _ a => a
  | .lineTo _ _ a => a
  | .arcTo _ _ _ a => a
  | .curveTo _ _ _ _ a => a

/-- Whether a command generates a span (everything except MoveTo). -/
def PathCommand.isSpan : PathCommand → Bool
  | .moveTo _ _ _ => false
  | _ => true

/-- part_003 `Path._ensureStartPosition` (lines 147-151): an empty command
list receives a synthesized MoveTo at (0, 0). -/
def ensureStartPosition (zOrder : ℚ) (attrs : Attrs) (cmds : List PathCommand) :
    List PathCommand :=
  if cmds.isEmpty then cmds ++ [.moveTo (0, 0) zOrder attrs] else cmds

/-- part_003 `Path.lineTo` builder (lines 94-102). -/
def pathLineTo (cmds : List PathCommand) (dest : Pt) (zOrder : ℚ) (attrs : Attrs) :
    List PathCommand :=
  ensureStartPosition zOrder attrs cmds ++ [.lineTo dest zOrder attrs]

/-- part_003 `Path.arcTo` builder (lines 114-123). -/
def pathArcTo (cmds : List PathCommand) (dest : Pt) (radius : ℚ) (zOrder : ℚ)
    (attrs : Attrs) : List PathCommand :=
  ensureStartPosition zOrder attrs cmds ++ [.arcTo dest radius zOrder attrs]

/-- part_003 `Path.curveTo` builder (lines 135-145). -/
def pathCurveTo (cmds : List PathCommand) (dest c1 c2 : Pt) (zOrder : ℚ)
    (attrs : Attrs) : List PathCommand :=
  ensureStartPosition zOrder attrs cmds ++ [.curveTo dest c1 c2 zOrder attrs]

/-- part_003 `Path.moveTo` builder (lines 77-84). -/
def pathMoveTo (cmds : List PathCommand) (dest : Pt) (zOrder : ℚ) (attrs : Attrs) :
    List PathCommand :=
  cmds ++ [.moveTo dest zOrder attrs]

/-- part_003 `GeometryGroup`: an index range `{start, end, zOrder}` (the
`end` field is named `stop` here because `end` is a Lean keyword). -/
structure GGroup where
  start : ℚ
  stop : ℚ
  zOrder : ℚ

/-- part_003 `GeometryStats`. -/
structure GStats where
  attributeSizes : List (String × ℕ)
  vertices : ℚ
  indices : ℚ
  groups : List GGroup

/-- One update step of the attribute-size map: set `sizes[name]` to `len`
unless the present entry is already at least `len`
(`if (!(length <= stats.attributeSizes[name])) ...`, part_003 lines
370-372); an absent entry compares as false and is written. -/
def assocBump : List (String × ℕ) → String → ℕ → List (String × ℕ)
  | [], name, len => [(name, len)]
  | (n, s) :: rest, name, len =>
    if n = name then (if len ≤ s then (n, s) :: rest else (n, len) :: rest)
    else (n, s) :: assocBump rest name len

/-- The attribute-size pass of `PathCommand.updateStats` (part_003 lines
366-374). -/
def bumpAttrs (sizes : List (String × ℕ)) (attrs : Attrs) : List (String × ℕ) :=
  attrs.foldl (fun sz nv => assocBump sz nv.1 nv.2.len) sizes

/-- part_003 `PathCommand._addToStats` (lines 377-382): add the vertices for
the divisions, extend the index counter by 15 (edge) or 24 (thick) per
division, and push one group covering the added index range. -/
def addToStats (s : GStats) (divisions : ℤ) (edge : Bool) (zOrder : ℚ) : GStats :=
  { attributeSizes := s.attributeSizes
    vertices := s.vertices + ((if edge then 5 else 8) * divisions : ℤ)
    indices := s.indices + ((if edge then 15 else 24) * divisions : ℤ)
    groups := s.groups ++
      [{ start := s.indices
         stop := s.indices + ((if edge then 15 else 24) * divisions : ℤ)
         zOrder := zOrder }] }

/-- part_003 `CurveTo._getSplineParameters` (lines 882-894): the cubic
coefficients, the closed-form length bound and the division count. -/
def curveToGetSplineParameters (tessellation : ℚ) (previousDest dest c1 c2 : Pt) :
    Pt × Pt × Pt × Pt × ℚ × ℤ :=
  let d := previousDest
  let c := minus c1 previousDest
  let b := minus c2 previousDest
  let a := minus (minus (minus dest b) c) d
  let len := 1 / 2 * dot a a + 1 / 2 * dot b b + dot a b + dot a c + dot c b
  (a, b, c, d, len, Int.ceil (len * tessellation))

/-- The error message of the source's `throw new Error('Missing previous
command.')`. -/
def missingPrevMsg : String := "Missing previous command."

/-- Modelled runtime error: `groups[groupIndex++]` past the end of the
groups array yields `undefined` in JavaScript, and reading `.start` off it
throws a TypeError. -/
def undefinedGroupMsg : String := "Cannot read property start of undefined"

/-- One command's `updateStats` (part_003 lines 550-561, 593-602, 664-677,
783-799): MoveTo adds 2 vertices unless the path loops; LineTo reserves one
division; ArcTo and CurveTo first fail on a missing previous command, then
reserve their division count. -/
def cmdUpdateStats (ml : MathOracle) (tessellation : ℚ) (prev : Option PathCommand)
    (edge loop : Bool) (c : PathCommand) (s : GStats) : Except String GStats :=
  match c with
  | .moveTo _ _ a =>
    let s' := { s with attributeSizes := bumpAttrs s.attributeSizes a }
    pure (if loop then s' else { s' with vertices := s'.vertices + 2 })
  | .lineTo _ z a =>
    let s' := { s with attributeSizes := bumpAttrs s.attributeSizes a }
    pure (addToStats s' 1 edge z)
  | .arcTo dest radius z a =>
    match prev with
    | none => throw missingPrevMsg
    | some p =>
      let s' := { s with attributeSizes := bumpAttrs s.attributeSizes a }
      let pr := arcToGetArcParameters ml tessellation p.dest dest radius
      pure (addToStats s' pr.2 edge z)
  | .curveTo dest c1 c2 z a =>
    match prev with
    | none => throw missingPrevMsg
    | some p =>
      let s' := { s with attributeSizes := bumpAttrs s.attributeSizes a }
      let pr := curveToGetSplineParameters tessellation p.dest dest c1 c2
      pure (addToStats s' pr.2.2.2.2.2 edge z)

/-- The command fold of `Path.updateStats` (part_003 lines 153-165), with
the previous command threaded exactly as the source's indexing does: for a
loop the previous of the first command is the last command, otherwise it is
absent. -/
def pathUpdateStatsGo (ml : MathOracle) (tessellation : ℚ) (edge loop : Bool) :
    Option PathCommand → List PathCommand → GStats → Except String GStats
  | _, [], s => pure s
  | prev, c :: rest, s => do
    let s' ← cmdUpdateStats ml tessellation prev edge loop c s
    pathUpdateStatsGo ml tessellation edge loop (some c) rest s'

/-- part_003 `Path.updateStats`. -/
def pathUpdateStats (ml : MathOracle) (tessellation : ℚ) (edge loop : Bool)
    (cmds : List PathCommand) (s : GStats) : Except String GStats :=
  pathUpdateStatsGo ml tessellation edge loop
    (if loop then cmds.getLast? else none) cmds s

/-- The populate-pass cursor: the running float-array index and the running
group index. -/
structure PopCursor where
  arrayIndex : ℚ
  groupIndex : ℕ

/-- The per-division loop shared by `ArcTo.populateBuffers` and
`CurveTo.populateBuffers` (part_003 lines 717-751, 833-878): each division
consumes one entry of the groups array (`groups[groupIndex++].start`) and
writes one division's worth of vertices.  A group access past the end of
the array is the modelled TypeError. -/
def spanIterate (groups : List GGroup) (perDivision : ℚ) :
    ℕ → PopCursor → Except String PopCursor
  | 0, cur => pure cur
  | n + 1, cur =>
    match groups.get? cur.groupIndex with
    | none => throw undefinedGroupMsg
    | some _ =>
      spanIterate groups perDivision n
        ⟨cur.arrayIndex + perDivision, cur.groupIndex + 1⟩

/-- One command's `populateBuffers`, tracking the array cursor, the group
consumption and the thrown errors (part_003 lines 563-589, 604-648,
679-753, 801-880).  The vertex data written (2 vertices at the previous
point plus `(5|8) - 2` at the span point per division, each `vertexSize`
wide) moves the array index by `(5|8) * vertexSize` per division. -/
def cmdPopulate (ml : MathOracle) (groups : List GGroup) (vertexSize tessellation : ℚ)
    (loop edge : Bool) (prev : Option PathCommand) (c : PathCommand)
    (cur : PopCursor) : Except String PopCursor :=
  match c with
  | .moveTo _ _ _ =>
    pure (if loop then cur
      else { cur with arrayIndex := cur.arrayIndex + 2 * vertexSize })
  | .lineTo _ _ _ =>
    match prev with
    | none => throw missingPrevMsg
    | some _ =>
      match groups.get? cur.groupIndex with
      | none => throw undefinedGroupMsg
      | some _ =>
        pure ⟨cur.arrayIndex + (if edge then 5 else 8) * vertexSize,
          cur.groupIndex + 1⟩
  | .arcTo dest radius _ _ =>
    match prev with
    | none => throw missingPrevMsg
    | some p =>
      let pr := arcToGetArcParameters ml tessellation p.dest dest radius
      spanIterate groups ((if edge then 5 else 8) * vertexSize) pr.2.toNat cur
  | .curveTo dest c1 c2 _ _ =>
    match prev with
    | none => throw missingPrevMsg
    | some p =>
      let pr := curveToGetSplineParameters tessellation p.dest dest c1 c2
      spanIterate groups ((if edge then 5 else 8) * vertexSize) pr.2.2.2.2.2.toNat cur

/-- The command fold of `Path.populateBuffers` (part_003 lines 190-214),
threading the previous command as the source's indexing does. -/
def pathPopulateGo (ml : MathOracle) (groups : List GGroup)
    (vertexSize tessellation : ℚ) (loop edge : Bool) :
    Option PathCommand → List PathCommand → PopCursor → Except String PopCursor
  | _, [], cur => pure cur
  | prev, c :: rest, cur => do
    let cur' ← cmdPopulate ml groups vertexSize tessellation loop edge prev c cur
    pathPopulateGo ml groups vertexSize tessellation loop edge (some c) rest cur'

/-- The local stats object built at the top of `Path.populateBuffers`
(part_003 lines 179-184). -/
def populateLocalStats : GStats :=
  { attributeSizes := [("vertex", 2), ("plane", 3)], vertices := 0, indices := 0,
    groups := [] }

/-- part_003 `Path.populateBuffers` (lines 167-345) as far as cursor
movement, group consumption and thrown errors are concerned: it first
recomputes this path's stats (which can itself throw on a missing previous
command), then runs every command's populate step.  The final
vector-attribute pass (lines 215-343) rewrites vector attributes of already
written vertices without moving the cursor or throwing; it is embedded
separately as `vectorPass`. -/
def pathPopulateBuffers (ml : MathOracle) (groups : List GGroup)
    (vertexSize tessellation : ℚ) (loop edge : Bool) (cmds : List PathCommand)
    (cur : PopCursor) : Except String PopCursor := do
  let _stats ← pathUpdateStats ml tessellation edge loop cmds populateLocalStats
  pathPopulateGo ml groups vertexSize tessellation loop edge
    (if loop then cmds.getLast? else none) cmds cur

/-- The initial stats object of `ShapeList.createGeometry` (part_003 lines
1338-1343). -/
def createGeometryInitStats : GStats :=
  { attributeSizes := [("vertex", 2), ("vector", 2)], vertices := 0, indices := 0,
    groups := [] }

/-- `ShapeList.createGeometry` (part_003 lines 1334-1402) specialized to a
shape list holding a single path: the stats pass runs `Path.updateStats`
with edge = false, then the populate pass runs `Path.populateBuffers` with
the stats' groups and cursor (0, 0).  The z-order group sort (lines
1357-1369) permutes and re-bases the same group objects without changing
their number and is not observable by this embedding, so it is omitted. -/
def createGeometrySinglePath (ml : MathOracle) (tessellation vertexSize : ℚ)
    (loop : Bool) (cmds : List PathCommand) : Except String PopCursor := do
  let stats ← pathUpdateStats ml tessellation false loop cmds createGeometryInitStats
  pathPopulateBuffers ml stats.groups vertexSize tessellation loop false cmds ⟨0, 0⟩

/-- Definitional bind reduction on a successful Except value. -/
theorem exceptBind_ok {α β : Type} (a : α) (f : α → Except String β) :
    (do
      let x ← (Except.ok a : Except String α)
      f x) = f a := rfl

/-- Definitional bind reduction on a failed Except value. -/
theorem exceptBind_err {α β : Type} (e : String) (f : α → Except String β) :
    (do
      let x ← (Except.error e : Except String α)
      f x) = Except.error e := rfl

/-- A command's stats step with a present previous command never throws. -/
theorem cmdUpdateStats_some_ok (ml : MathOracle) (tess : ℚ) (edge loop : Bool)
    (p c : PathCommand) (s : GStats) :
    ∃ s', cmdUpdateStats ml tess (some p) edge loop c s = Except.ok s' := by
  cases c <;> simp [cmdUpdateStats, pure, Except.pure]

/-- The stats fold seeded with a present previous command never throws. -/
theorem pathUpdateStatsGo_some_ok (ml : MathOracle) (tess : ℚ) (edge loop : Bool) :
    ∀ (cmds : List PathCommand) (p : PathCommand) (s : GStats),
      ∃ s', pathUpdateStatsGo ml tess edge loop (some p) cmds s = Except.ok s' := by
  intro cmds
  induction cmds with
  | nil => exact fun p s => ⟨s, rfl⟩
  | cons c rest ih =>
    intro p s
    obtain ⟨s₁, h1⟩ := cmdUpdateStats_some_ok ml tess edge loop p c s
    obtain ⟨s', h2⟩ := ih c s₁
    refine ⟨s', ?_⟩
    rw [pathUpdateStatsGo, h1, exceptBind_ok, h2]

/-- The per-division loop can only fail with the undefined-group error. -/
theorem spanIterate_err (groups : List GGroup) (pd : ℚ) :
    ∀ (n : ℕ) (cur : PopCursor) (e : String),
      spanIterate groups pd n cur = Except.error e → e = undefinedGroupMsg := by
  intro n
  induction n with
  | zero => intro cur e h; exact absurd h (by simp [spanIterate, pure, Except.pure])
  | succ k ih =>
    intro cur e h
    rw [spanIterate] at h
    cases hg : groups.get? cur.groupIndex with
    | none => rw [hg] at h; exact (Except.error.injEq _ _).mp h.symm
    | some g => rw [hg] at h; exact ih _ e h

/-- A command's populate step with a present previous command can only fail
with the undefined-group error. -/
theorem cmdPopulate_some_err (ml : MathOracle) (groups : List GGroup)
    (vs tess : ℚ) (loop edge : Bool) (p c : PathCommand) (cur : PopCursor)
    (e : String) :
    cmdPopulate ml groups vs tess loop edge (some p) c cur = Except.error e →
      e = undefinedGroupMsg := by
  intro h
  cases c with
  | moveTo d z a => exact absurd h (by simp [cmdPopulate, pure, Except.pure])
  | lineTo d z a =>
    rw [cmdPopulate] at h
    cases hg : groups.get? cur.groupIndex with
    | none => rw [hg] at h; exact (Except.error.injEq _ _).mp h.symm
    | some g => rw [hg] at h; exact absurd h (by simp [pure, Except.pure])
  | arcTo d r z a => exact spanIterate_err groups _ _ cur e h
  | curveTo d c1 c2 z a => exact spanIterate_err groups _ _ cur e h

/-- The populate fold seeded with a present previous command can only fail
with the undefined-group error, never the missing-previous error. -/
theorem pathPopulateGo_some_err (ml : MathOracle) (groups : List GGroup)
    (vs tess : ℚ) (loop edge : Bool) :
    ∀ (cmds : List PathCommand) (p : PathCommand) (cur : PopCursor) (e : String),
      pathPopulateGo ml groups vs tess loop edge (some p) cmds cur =
          Except.error e →
        e = undefinedGroupMsg := by
  intro cmds
  induction cmds with
  | nil =>
    intro p cur e h
    exact absurd h (by simp [pathPopulateGo, pure, Except.pure])
  | cons c rest ih =>
    intro p cur e h
    rw [pathPopulateGo] at h
    cases hstep : cmdPopulate ml groups vs tess loop edge (some p) c cur with
    | error e' =>
      rw [hstep, exceptBind_err] at h
      have : e' = e := (Except.error.injEq _ _).mp h
      exact this ▸ cmdPopulate_some_err ml groups vs tess loop edge p c cur e' hstep
    | ok cur' =>
      rw [hstep, exceptBind_ok] at h
      exact ih c cur' e h

/-- Unfolding `pathUpdateStats` for a non-loop path. -/
theorem pathUpdateStats_false (ml : MathOracle) (tess : ℚ) (edge : Bool)
    (cmds : List PathCommand) (s : GStats) :
    pathUpdateStats ml tess edge false cmds s =
      pathUpdateStatsGo ml tess edge false none cmds s := rfl

/-- Unfolding `pathUpdateStats` for a loop path. -/
theorem pathUpdateStats_true (ml : MathOracle) (tess : ℚ) (edge : Bool)
    (cmds : List PathCommand) (s : GStats) :
    pathUpdateStats ml tess edge true cmds s =
      pathUpdateStatsGo ml tess edge true cmds.getLast? cmds s := rfl

/-- Unfolding `pathPopulateBuffers` for a non-loop path. -/
theorem pathPopulateBuffers_false (ml : MathOracle) (groups : List GGroup)
    (vs tess : ℚ) (edge : Bool) (cmds : List PathCommand) (cur : PopCursor) :
    pathPopulateBuffers ml groups vs tess false edge cmds cur = (do
      let _s ← pathUpdateStatsGo ml tess edge false none cmds populateLocalStats
      pathPopulateGo ml groups vs tess false edge none cmds cur) := rfl

/-- Unfolding `pathPopulateBuffers` for a loop path. -/
theorem pathPopulateBuffers_true (ml : MathOracle) (groups : List GGroup)
    (vs tess : ℚ) (edge : Bool) (cmds : List PathCommand) (cur : PopCursor) :
    pathPopulateBuffers ml groups vs tess true edge cmds cur = (do
      let _s ← pathUpdateStatsGo ml tess edge true cmds.getLast? cmds populateLocalStats
      pathPopulateGo ml groups vs tess true edge cmds.getLast? cmds cur) := rfl

/-- A MoveTo stats step never throws, previous command or not. -/
theorem cmdUpdateStats_moveTo_ok (ml : MathOracle) (tess : ℚ)
    (prev : Option PathCommand) (edge loop : Bool) (d : Pt) (z : ℚ) (a : Attrs)
    (s : GStats) :
    ∃ s', cmdUpdateStats ml tess prev edge loop (.moveTo d z a) s = Except.ok s' :=
  ⟨_, rfl⟩

/-- A LineTo stats step never throws, previous command or not (the source's
`LineTo.updateStats` has no previous-command check). -/
theorem cmdUpdateStats_lineTo_ok (ml : MathOracle) (tess : ℚ)
    (prev : Option PathCommand) (edge loop : Bool) (d : Pt) (z : ℚ) (a : Attrs)
    (s : GStats) :
    ∃ s', cmdUpdateStats ml tess prev edge loop (.lineTo d z a) s = Except.ok s' := by
  cases prev <;> exact ⟨_, rfl⟩

/-- C5: processing a LineTo (likewise ArcTo, CurveTo) with no previous
command fails fast with the "Missing previous command." error, it propagates
through the stats and populate passes of `createGeometry` without being
recovered, and it arises exactly when span generation sees no previous
command: exactly on a non-loop path whose first command is a span command.
(The public `Path.lineTo`/`arcTo`/`curveTo` builders run
`_ensureStartPosition`, so paths they build start with a MoveTo and never
trigger it.) -/
theorem c5_missing_previous_error (ml : MathOracle) (tess vs : ℚ) (loop : Bool)
    (cmds : List PathCommand) :
    createGeometrySinglePath ml tess vs loop cmds = Except.error missingPrevMsg ↔
      (loop = false ∧ ∃ c, cmds.head? = some c ∧ c.isSpan = true) := by
  have hne : undefinedGroupMsg ≠ missingPrevMsg := by decide
  cases cmds with
  | nil =>
    constructor
    · intro h
      exact absurd h (by cases loop <;> exact (by simp [createGeometrySinglePath,
        pathUpdateStats, pathUpdateStatsGo, pathPopulateBuffers, pathPopulateGo,
        exceptBind_ok, pure, Except.pure]))
    · rintro ⟨-, c, hc, -⟩
      exact absurd hc (by simp)
  | cons c rest =>
    cases loop with
    | true =>
      have hlast : ∃ l, (c :: rest).getLast? = some l := by
        have : (c :: rest).getLast?.isSome := by
          rw [List.getLast?_isSome]
          simp
        exact Option.isSome_iff_exists.mp this
      obtain ⟨l, hl⟩ := hlast
      have hLHS : createGeometrySinglePath ml tess vs true (c :: rest) ≠
          Except.error missingPrevMsg := by
        intro h
        rw [createGeometrySinglePath, pathUpdateStats_true, hl] at h
        obtain ⟨s1, h1⟩ :=
          pathUpdateStatsGo_some_ok ml tess false true (c :: rest) l
            createGeometryInitStats
        rw [h1, exceptBind_ok, pathPopulateBuffers_true, hl] at h
        obtain ⟨s2, h2⟩ :=
          pathUpdateStatsGo_some_ok ml tess false true (c :: rest) l
            populateLocalStats
        rw [h2, exceptBind_ok] at h
        exact hne (pathPopulateGo_some_err ml s1.groups vs tess true false
          (c :: rest) l ⟨0, 0⟩ missingPrevMsg h).symm
      exact ⟨fun h => absurd h hLHS, by rintro ⟨h, -⟩; exact absurd h (by simp)⟩
    | false =>
      cases c with
      | moveTo d z a =>
        have hLHS : createGeometrySinglePath ml tess vs false
            (.moveTo d z a :: rest) ≠ Except.error missingPrevMsg := by
          intro h
          rw [createGeometrySinglePath, pathUpdateStats_false,
            pathUpdateStatsGo] at h
          obtain ⟨s1, h1⟩ := cmdUpdateStats_moveTo_ok ml tess none false false
            d z a createGeometryInitStats
          rw [h1, exceptBind_ok] at h
          obtain ⟨s2, h2⟩ := pathUpdateStatsGo_some_ok ml tess false false rest
            (.moveTo d z a) s1
          rw [h2, exceptBind_ok, pathPopulateBuffers_false,
            pathUpdateStatsGo] at h
          obtain ⟨s3, h3⟩ := cmdUpdateStats_moveTo_ok ml tess none false false
            d z a populateLocalStats
          rw [h3, exceptBind_ok] at h
          obtain ⟨s4, h4⟩ := pathUpdateStatsGo_some_ok ml tess false false rest
            (.moveTo d z a) s3
          rw [h4, exceptBind_ok, pathPopulateGo] at h
          rw [show cmdPopulate ml s2.groups vs tess false false none
              (.moveTo d z a) ⟨0, 0⟩ =
              Except.ok ⟨0 + 2 * vs, 0⟩ from rfl, exceptBind_ok] at h
          exact hne (pathPopulateGo_some_err ml s2.groups vs tess false false
            rest (.moveTo d z a) ⟨0 + 2 * vs, 0⟩ missingPrevMsg h).symm
        exact ⟨fun h => absurd h hLHS,
          by rintro ⟨-, c', hc', hs⟩; simp at hc'; rw [← hc'] at hs;
             exact absurd hs (by simp [PathCommand.isSpan])⟩
      | lineTo d z a =>
        have hLHS : createGeometrySinglePath ml tess vs false
            (.lineTo d z a :: rest) = Except.error missingPrevMsg := by
          rw [createGeometrySinglePath, pathUpdateStats_false, pathUpdateStatsGo]
          obtain ⟨s1, h1⟩ := cmdUpdateStats_lineTo_ok ml tess none false false
            d z a createGeometryInitStats
          rw [h1, exceptBind_ok]
          obtain ⟨s2, h2⟩ := pathUpdateStatsGo_some_ok ml tess false false rest
            (.lineTo d z a) s1
          rw [h2, exceptBind_ok, pathPopulateBuffers_false, pathUpdateStatsGo]
          obtain ⟨s3, h3⟩ := cmdUpdateStats_lineTo_ok ml tess none false false
            d z a populateLocalStats
          rw [h3, exceptBind_ok]
          obtain ⟨s4, h4⟩ := pathUpdateStatsGo_some_ok ml tess false false rest
            (.lineTo d z a) s3
          rw [h4, exceptBind_ok, pathPopulateGo]
          rw [show cmdPopulate ml s2.groups vs tess false false none
              (.lineTo d z a) ⟨0, 0⟩ = Except.error missingPrevMsg from rfl]
          rw [exceptBind_err]
        exact ⟨fun _ => ⟨rfl, .lineTo d z a, rfl, rfl⟩, fun _ => hLHS⟩
      | arcTo d r z a =>
        have hLHS : createGeometrySinglePath ml tess vs false
            (.arcTo d r z a :: rest) = Except.error missingPrevMsg := by
          rw [createGeometrySinglePath, pathUpdateStats_false, pathUpdateStatsGo]
          rw [show cmdUpdateStats ml tess none false false (.arcTo d r z a)
              createGeometryInitStats = Except.error missingPrevMsg from rfl]
          rw [exceptBind_err, exceptBind_err]
        exact ⟨fun _ => ⟨rfl, .arcTo d r z a, rfl, rfl⟩, fun _ => hLHS⟩
      | curveTo d c1 c2 z a =>
        have hLHS : createGeometrySinglePath ml tess vs false
            (.curveTo d c1 c2 z a :: rest) = Except.error missingPrevMsg := by
          rw [createGeometrySinglePath, pathUpdateStats_false, pathUpdateStatsGo]
          rw [show cmdUpdateStats ml tess none false false (.curveTo d c1 c2 z a)
              createGeometryInitStats = Except.error missingPrevMsg from rfl]
          rw [exceptBind_err, exceptBind_err]
        exact ⟨fun _ => ⟨rfl, .curveTo d c1 c2 z a, rfl, rfl⟩, fun _ => hLHS⟩

/-- The C8 failing input: a non-loop path holding a MoveTo to (0,0) followed
by an ArcTo to (2,0) with radius 1 (no extra attributes), tessellated at
density 1.  The chord is 2, so height/radius = 1 and the arc is a
semicircle: divisions = ceil(2 * asin(1)) = ceil(pi) > 1. -/
def c8FailingPath : List PathCommand :=
  [.moveTo (0, 0) 0 [], .arcTo (2, 0) 1 0 []]

/-- A span loop whose group cursor already sits at or past the end of the
groups array fails on its first iteration. -/
theorem spanIterate_out_of_range (groups : List GGroup) (pd : ℚ) :
    ∀ (n : ℕ) (cur : PopCursor), 1 ≤ n → groups.length ≤ cur.groupIndex →
      spanIterate groups pd n cur = Except.error undefinedGroupMsg := by
  intro n cur h1 h2
  match n, h1 with
  | m + 1, _ =>
    rw [spanIterate, List.get?_eq_none.mpr h2]
    rfl

/-- With only one group available, a span loop that runs at least twice
reads past the end of the groups array. -/
theorem spanIterate_overrun (g : GGroup) (pd : ℚ) :
    ∀ n : ℕ, 2 ≤ n → ∀ cur : PopCursor, cur.groupIndex = 0 →
      spanIterate [g] pd n cur = Except.error undefinedGroupMsg := by
  intro n hn
  match n, hn with
  | k + 2, _ =>
    intro cur hcur
    rw [spanIterate, show ([g].get? cur.groupIndex) = some g from by rw [hcur]; rfl]
    exact spanIterate_out_of_range [g] pd (k + 1) _ (by omega) (by simp [hcur])

/-- C8: evaluation at the failing input.  The stats pass of
`createGeometry` reserves exactly one index group for the whole ArcTo
command (`_addToStats` pushes a single group covering 24 * divisions
indices), but the populate pass consumes one group per division
(`groups[groupIndex++]` inside the division loop), so with divisions >= 2
it reads past the end of the groups array and the populate pass crashes
with the modelled TypeError rather than writing each reserved range once.
The oracle hypotheses sqrt 4 = 2 (exact) and 1 < asin 1 (true of the real
value pi/2) pin down the division count to at least 2. -/
theorem c8_group_reservation_mismatch (ml : MathOracle)
    (hsqrt : ml.sqrt 4 = 2) (hasin : 1 < ml.asin 1) :
    (∃ s, pathUpdateStats ml 1 false false c8FailingPath createGeometryInitStats =
        Except.ok s ∧ s.groups.length = 1) ∧
      createGeometrySinglePath ml 1 4 false c8FailingPath =
        Except.error undefinedGroupMsg := by
  have hd : distance ml ((0 : ℚ), (0 : ℚ)) ((2 : ℚ), (0 : ℚ)) = 2 := by
    rw [distance, show (((2 : ℚ), (0 : ℚ)).1 - ((0 : ℚ), (0 : ℚ)).1) *
        (((2 : ℚ), (0 : ℚ)).1 - ((0 : ℚ), (0 : ℚ)).1) +
        (((2 : ℚ), (0 : ℚ)).2 - ((0 : ℚ), (0 : ℚ)).2) *
        (((2 : ℚ), (0 : ℚ)).2 - ((0 : ℚ), (0 : ℚ)).2) = 4 by norm_num]
    exact hsqrt
  have hparams : (arcToGetArcParameters ml 1 ((0 : ℚ), (0 : ℚ)) ((2 : ℚ), (0 : ℚ)) 1).2 =
      Int.ceil ((2 : ℚ) * ml.asin 1) := by
    rw [arcToGetArcParameters]
    simp only [hd]
    norm_num [clamp]
  have htn : 2 ≤ ((arcToGetArcParameters ml 1 ((0 : ℚ), (0 : ℚ)) ((2 : ℚ), (0 : ℚ)) 1).2).toNat := by
    rw [hparams]
    have h2 : (2 : ℤ) < Int.ceil ((2 : ℚ) * ml.asin 1) := by
      rw [Int.lt_ceil]
      push_cast
      linarith
    omega
  refine ⟨⟨_, rfl, rfl⟩, ?_⟩
  rw [createGeometrySinglePath]
  obtain ⟨S, hS, g, hg⟩ :
      ∃ S, pathUpdateStats ml 1 false false c8FailingPath createGeometryInitStats =
          Except.ok S ∧ ∃ g, S.groups = [g] :=
    ⟨_, rfl, _, rfl⟩
  rw [hS, exceptBind_ok, pathPopulateBuffers_false]
  obtain ⟨S2, hS2⟩ :
      ∃ S2, pathUpdateStatsGo ml 1 false false none c8FailingPath populateLocalStats =
          Except.ok S2 :=
    ⟨_, rfl⟩
  rw [hS2, exceptBind_ok]
  rw [show pathPopulateGo ml S.groups 4 1 false false none c8FailingPath ⟨0, 0⟩ =
      Except.bind
        (spanIterate S.groups ((if false then 5 else 8) * 4)
          ((arcToGetArcParameters ml 1 ((0 : ℚ), (0 : ℚ)) ((2 : ℚ), (0 : ℚ)) 1).2.toNat)
          ⟨0 + 2 * 4, 0⟩)
        (fun cur =>
          pathPopulateGo ml S.groups 4 1 false false (some (.arcTo (2, 0) 1 0 [])) [] cur)
      from rfl]
  rw [hg, spanIterate_overrun g _ _ htn ⟨0 + 2 * 4, 0⟩ rfl]
  rfl

/-- Witness for C8 at the demo oracle (sqrt 4 = 2 exactly; asin 1 is the
rational approximation 1.57 of pi/2, and the only fact used, 1 < asin 1,
is true of the real value). -/
theorem c8_group_reservation_witness :
    (mathDemo.sqrt 4 = 2 ∧ 1 < mathDemo.asin 1) ∧
      ((∃ s, pathUpdateStats mathDemo 1 false false c8FailingPath
            createGeometryInitStats = Except.ok s ∧ s.groups.length = 1) ∧
        createGeometrySinglePath mathDemo 1 4 false c8FailingPath =
          Except.error undefinedGroupMsg) :=
  ⟨⟨by norm_num [mathDemo], by norm_num [mathDemo]⟩,
    c8_group_reservation_mismatch mathDemo (by norm_num [mathDemo])
      (by norm_num [mathDemo])⟩

/-- The cyclic left neighbor of `v` in the linked vertex list, which the
embedding keeps as a list in cycle order (`Shape.populateBuffers` wires
`vertex.left` to the previous array entry modulo length, part_003 lines
971-975). -/
def leftIn (l : List ℕ) (v : ℕ) : ℕ :=
  l.getD ((l.indexOf v + l.length - 1) % l.length) 0

/-- The cyclic right neighbor of `v` in the linked vertex list. -/
def rightIn (l : List ℕ) (v : ℕ) : ℕ :=
  l.getD ((l.indexOf v + 1) % l.length) 0

/-- JavaScript `Set.add`: append if absent (insertion-ordered set). -/
def setAdd (x : ℕ) (s : List ℕ) : List ℕ :=
  if x ∈ s then s else s ++ [x]

/-- The convexity test `cross(v - left, right - left) >= 0` used both for
the initial classification (part_003 lines 982-991) and for the
re-classification of the two neighbors of a clipped vertex (lines
1027-1045), evaluated against the ring the vertex currently sits in. -/
def convexAt (pos : ℕ → Pt) (ring : List ℕ) (v : ℕ) : Bool :=
  decide (0 ≤ cross (minus (pos v) (pos (leftIn ring v)))
    (minus (pos (rightIn ring v)) (pos (leftIn ring v))))

/-- The state of the ear-clipping loop of `Shape.populateBuffers` (part_003
lines 977-1059): the remaining ring, the two insertion-ordered vertex sets,
the `remainingTriangles` and `iterationsWithoutTriangle` counters, and the
emitted triangles (as triples of ring vertex ids; the source stores
`firstIndex + 5 * id` buffer indices for each id). -/
structure EarState where
  ring : List ℕ
  convex : List ℕ
  concave : List ℕ
  remaining : ℕ
  iters : ℕ
  out : List (ℕ × ℕ × ℕ)

/-- The ear test (part_003 lines 1007-1021): the plane through the two
neighbors must not have any other remaining vertex strictly on its negative
side. -/
def isEar (ml : MathOracle) (pos : ℕ → Pt) (s : EarState) (v : ℕ) : Bool :=
  let l := leftIn s.ring v
  let r := rightIn s.ring v
  let pl := planeFromPoints ml (pos l) (pos r)
  (s.convex ++ s.concave).all fun t =>
    decide (¬(signedDistance pl (pos t) < 0 ∧ t ≠ v ∧ t ≠ l ∧ t ≠ r))

/-- Moving a neighbor of a clipped vertex into the set matching its new
convexity (part_003 lines 1027-1045: delete from the one set, add to the
other). -/
def rebucket (pos : ℕ → Pt) (newRing : List ℕ) (x : ℕ) (cv cc : List ℕ) :
    List ℕ × List ℕ :=
  if convexAt pos newRing x then (setAdd x cv, cc.erase x)
  else (cv.erase x, setAdd x cc)

/-- Clipping one ear (part_003 lines 1023-1052): relink the ring around the
vertex, delete it from the set being iterated, re-classify its two
neighbors, and emit the triangle (left, vertex, right). -/
def clip (pos : ℕ → Pt) (s : EarState) (v : ℕ) (fromConvex : Bool) : EarState :=
  let u := leftIn s.ring v
  let w := rightIn s.ring v
  let newRing := s.ring.erase v
  let sets1 := if fromConvex then (s.convex.erase v, s.concave)
    else (s.convex, s.concave.erase v)
  let sets2 := rebucket pos newRing u sets1.1 sets1.2
  let sets3 := rebucket pos newRing w sets2.1 sets2.2
  { ring := newRing, convex := sets3.1, concave := sets3.2,
    remaining := s.remaining - 1, iters := 0, out := s.out ++ [(u, v, w)] }

/-- One pass of the while loop (part_003 lines 996-1058): pick the vertex
set (concave only when no convex vertices remain), decide whether the ear
test is skipped (no convex vertices, or more than one stalled pass), and
clip the first acceptable vertex in insertion order, if any. -/
def clipPass (ml : MathOracle) (pos : ℕ → Pt) (s : EarState) : Option EarState :=
  let fromConvex := !s.convex.isEmpty
  let loopVerts := if s.convex.isEmpty then s.concave else s.convex
  let skipTest := s.convex.isEmpty || decide (1 < s.iters)
  match loopVerts.find? (fun v => skipTest || isEar ml pos s v) with
  | none => none
  | some v => some (clip pos s v fromConvex)

/-- The while loop itself, driven by fuel; `none` means the fuel ran out
(the termination theorem shows 3n fuel always suffices). -/
def earRun (ml : MathOracle) (pos : ℕ → Pt) : ℕ → EarState → Option EarState
  | 0, _ => none
  | fuel + 1, s =>
    if s.remaining = 0 then some s
    else
      match clipPass ml pos s with
      | some s' => earRun ml pos fuel s'
      | none => earRun ml pos fuel { s with iters := s.iters + 1 }

/-- The initial ear-clipping state (part_003 lines 959-995): one ring vertex
per 5 tessellated buffer vertices, classified into the convex and concave
sets in ring order, with `remainingTriangles = n - 2`. -/
def initEarState (pos : ℕ → Pt) (n : ℕ) : EarState :=
  { ring := List.range n
    convex := (List.range n).filter (fun v => convexAt pos (List.range n) v)
    concave := (List.range n).filter (fun v => !convexAt pos (List.range n) v)
    remaining := n - 2
    iters := 0
    out := [] }

/-- The ear-clipping triangulation of `Shape.populateBuffers` on the ring of
boundary vertex positions, with fuel 3n. -/
def triangulateShape (ml : MathOracle) (positions : List Pt) :
    Option (List (ℕ × ℕ × ℕ)) :=
  (earRun ml (fun i => positions.getD i (0, 0)) (3 * positions.length)
      (initEarState (fun i => positions.getD i (0, 0)) positions.length)).map
    (fun s => s.out)

/-- part_003 `Shape.updateStats` (lines 917-930): the reserved fill triangle
count is `exteriorVertices / 5 - 2` (JavaScript number division; the
edge-mode tessellation always emits 5 buffer vertices per ring vertex). -/
def shapeStatsTriangleCount (exteriorVertices : ℚ) : ℚ :=
  exteriorVertices / 5 - 2

/-- The loop invariant of the ear-clipping pass: the ring has no duplicate
vertices, the two sets partition exactly the ring's vertices, and the ring
always holds `remaining + 2` vertices. -/
def EarInv (s : EarState) : Prop :=
  s.ring.Nodup ∧ s.convex.Nodup ∧ s.concave.Nodup ∧
    (∀ x, x ∈ s.ring ↔ x ∈ s.convex ∨ x ∈ s.concave) ∧
    (∀ x, ¬(x ∈ s.convex ∧ x ∈ s.concave)) ∧
    s.ring.length = s.remaining + 2

/-- The fuel bound: three passes per remaining triangle suffice. -/
def earBound (s : EarState) : ℕ :=
  3 * s.remaining + 1 + (2 - s.iters)

/-- Cyclic left-neighbor index arithmetic. -/
theorem mod_left_index (i n : ℕ) (hi : i < n) :
    (i + n - 1) % n = if i = 0 then n - 1 else i - 1 := by
  cases i with
  | zero =>
    rw [if_pos rfl, Nat.zero_add]
    exact Nat.mod_eq_of_lt (by omega)
  | succ k =>
    rw [if_neg (Nat.succ_ne_zero k), show k + 1 + n - 1 = k + n by omega,
      Nat.add_mod_right, Nat.mod_eq_of_lt (by omega : k < n)]
    omega

/-- Cyclic right-neighbor index arithmetic. -/
theorem mod_right_index (i n : ℕ) (hi : i < n) :
    (i + 1) % n = if i + 1 = n then 0 else i + 1 := by
  by_cases h : i + 1 = n
  · rw [if_pos h, h, Nat.mod_self]
  · rw [if_neg h, Nat.mod_eq_of_lt (by omega)]

/-- The left neighbor as a list entry. -/
theorem leftIn_eq (l : List ℕ) (v : ℕ) (hv : v ∈ l) :
    ∃ h : (l.indexOf v + l.length - 1) % l.length < l.length,
      leftIn l v = l[(l.indexOf v + l.length - 1) % l.length] := by
  have hn : 0 < l.length := List.length_pos.mpr (List.ne_nil_of_mem hv)
  have hlt := Nat.mod_lt (l.indexOf v + l.length - 1) hn
  exact ⟨hlt, List.getD_eq_getElem l 0 hlt⟩

/-- The right neighbor as a list entry. -/
theorem rightIn_eq (l : List ℕ) (v : ℕ) (hv : v ∈ l) :
    ∃ h : (l.indexOf v + 1) % l.length < l.length,
      rightIn l v = l[(l.indexOf v + 1) % l.length] := by
  have hn : 0 < l.length := List.length_pos.mpr (List.ne_nil_of_mem hv)
  have hlt := Nat.mod_lt (l.indexOf v + 1) hn
  exact ⟨hlt, List.getD_eq_getElem l 0 hlt⟩

/-- The left neighbor lies in the ring. -/
theorem leftIn_mem (l : List ℕ) (v : ℕ) (hv : v ∈ l) : leftIn l v ∈ l := by
  obtain ⟨h, he⟩ := leftIn_eq l v hv
  rw [he]
  exact List.getElem_mem h

/-- The right neighbor lies in the ring. -/
theorem rightIn_mem (l : List ℕ) (v : ℕ) (hv : v ∈ l) : rightIn l v ∈ l := by
  obtain ⟨h, he⟩ := rightIn_eq l v hv
  rw [he]
  exact List.getElem_mem h

/-- In a duplicate-free ring of at least two vertices, the left neighbor
differs from the vertex. -/
theorem leftIn_ne (l : List ℕ) (v : ℕ) (hn : l.Nodup) (hv : v ∈ l)
    (h2 : 2 ≤ l.length) : leftIn l v ≠ v := by
  obtain ⟨hlt, he⟩ := leftIn_eq l v hv
  have hi : l.indexOf v < l.length := List.indexOf_lt_length.mpr hv
  rw [he]
  intro hq
  have hv' : l[l.indexOf v] = v := List.getElem_indexOf hi
  have hidx := hn.getElem_inj_iff.mp (hq.trans hv'.symm)
  rw [mod_left_index _ _ hi] at hidx
  split_ifs at hidx <;> omega

/-- In a duplicate-free ring of at least two vertices, the right neighbor
differs from the vertex. -/
theorem rightIn_ne (l : List ℕ) (v : ℕ) (hn : l.Nodup) (hv : v ∈ l)
    (h2 : 2 ≤ l.length) : rightIn l v ≠ v := by
  obtain ⟨hlt, he⟩ := rightIn_eq l v hv
  have hi : l.indexOf v < l.length := List.indexOf_lt_length.mpr hv
  rw [he]
  intro hq
  have hv' : l[l.indexOf v] = v := List.getElem_indexOf hi
  have hidx := hn.getElem_inj_iff.mp (hq.trans hv'.symm)
  rw [mod_right_index _ _ hi] at hidx
  split_ifs at hidx <;> omega

/-- In a duplicate-free ring of at least three vertices, the two neighbors
of a vertex are distinct. -/
theorem leftIn_ne_rightIn (l : List ℕ) (v : ℕ) (hn : l.Nodup) (hv : v ∈ l)
    (h3 : 3 ≤ l.length) : leftIn l v ≠ rightIn l v := by
  obtain ⟨hl, hel⟩ := leftIn_eq l v hv
  obtain ⟨hr, her⟩ := rightIn_eq l v hv
  have hi : l.indexOf v < l.length := List.indexOf_lt_length.mpr hv
  rw [hel, her]
  intro hq
  have hidx := hn.getElem_inj_iff.mp hq
  rw [mod_left_index _ _ hi, mod_right_index _ _ hi] at hidx
  split_ifs at hidx <;> omega

/-- Membership in a JavaScript-style set add. -/
theorem setAdd_mem (x y : ℕ) (s : List ℕ) : y ∈ setAdd x s ↔ y ∈ s ∨ y = x := by
  rw [setAdd]
  split_ifs with h
  · exact ⟨Or.inl, fun hy => hy.elim id (fun e => e ▸ h)⟩
  · simp

/-- A set add keeps the list duplicate-free. -/
theorem setAdd_nodup (x : ℕ) (s : List ℕ) (h : s.Nodup) : (setAdd x s).Nodup := by
  rw [setAdd]
  split_ifs with hx
  · exact h
  · simp [List.nodup_append, h, hx]

/-- Re-classifying a vertex that sits in exactly one of the two sets
preserves duplicate-freeness, the union and the disjointness. -/
theorem rebucket_spec (pos : ℕ → Pt) (newRing : List ℕ) (x : ℕ)
    (cv cc : List ℕ) (hcv : cv.Nodup) (hcc : cc.Nodup)
    (hdis : ∀ y, ¬(y ∈ cv ∧ y ∈ cc)) (hx : x ∈ cv ∨ x ∈ cc) :
    (rebucket pos newRing x cv cc).1.Nodup ∧
      (rebucket pos newRing x cv cc).2.Nodup ∧
      (∀ y, (y ∈ (rebucket pos newRing x cv cc).1 ∨
          y ∈ (rebucket pos newRing x cv cc).2) ↔ (y ∈ cv ∨ y ∈ cc)) ∧
      (∀ y, ¬(y ∈ (rebucket pos newRing x cv cc).1 ∧
          y ∈ (rebucket pos newRing x cv cc).2)) := by
  rw [rebucket]
  split_ifs with hb
  · refine ⟨setAdd_nodup x cv hcv, hcc.erase x, ?_, ?_⟩
    · intro y
      constructor
      · rintro (hy | hy)
        · rcases (setAdd_mem x y cv).mp hy with hy' | rfl
          · exact Or.inl hy'
          · exact hx
        · exact Or.inr (List.erase_subset _ _ hy)
      · rintro (hy | hy)
        · exact Or.inl ((setAdd_mem x y cv).mpr (Or.inl hy))
        · by_cases hyx : y = x
          · exact Or.inl ((setAdd_mem x y cv).mpr (Or.inr hyx))
          · exact Or.inr ((List.mem_erase_of_ne hyx).mpr hy)
    · rintro y ⟨h1, h2⟩
      rcases (setAdd_mem x y cv).mp h1 with hy | rfl
      · exact hdis y ⟨hy, List.erase_subset _ _ h2⟩
      · exact hcc.not_mem_erase h2
  · refine ⟨hcv.erase x, setAdd_nodup x cc hcc, ?_, ?_⟩
    · intro y
      constructor
      · rintro (hy | hy)
        · exact Or.inl (List.erase_subset _ _ hy)
        · rcases (setAdd_mem x y cc).mp hy with hy' | rfl
          · exact Or.inr hy'
          · exact hx
      · rintro (hy | hy)
        · by_cases hyx : y = x
          · exact Or.inr ((setAdd_mem x y cc).mpr (Or.inr hyx))
          · exact Or.inl ((List.mem_erase_of_ne hyx).mpr hy)
        · exact Or.inr ((setAdd_mem x y cc).mpr (Or.inl hy))
    · rintro y ⟨h1, h2⟩
      rcases (setAdd_mem x y cc).mp h2 with hy | rfl
      · exact hdis y ⟨List.erase_subset _ _ h1, hy⟩
      · exact hcv.not_mem_erase h1

/-- Clipping an ear preserves the loop invariant, decrements the remaining
count, emits exactly one triangle, and resets the stall counter. -/
theorem clip_inv (pos : ℕ → Pt) (s : EarState) (v : ℕ) (fromConvex : Bool)
    (hInv : EarInv s) (hrem : 1 ≤ s.remaining)
    (hv : v ∈ (if fromConvex then s.convex else s.concave)) :
    EarInv (clip pos s v fromConvex) ∧
      (clip pos s v fromConvex).remaining = s.remaining - 1 ∧
      (clip pos s v fromConvex).out.length = s.out.length + 1 ∧
      (clip pos s v fromConvex).iters = 0 := by
  obtain ⟨hrn, hcvn, hccn, hmem, hdisj, hlen⟩ := hInv
  cases fromConvex with
  | false =>
    replace hv : v ∈ s.concave := hv
    have hvr : v ∈ s.ring := (hmem v).mpr (Or.inr hv)
    have hum : leftIn s.ring v ∈ s.ring := leftIn_mem _ _ hvr
    have hwm : rightIn s.ring v ∈ s.ring := rightIn_mem _ _ hvr
    have hune : leftIn s.ring v ≠ v := leftIn_ne _ _ hrn hvr (by omega)
    have hwne : rightIn s.ring v ≠ v := rightIn_ne _ _ hrn hvr (by omega)
    have h1 : ∀ y, (y ∈ s.convex ∨ y ∈ s.concave.erase v) ↔
        (y ∈ s.ring ∧ y ≠ v) := by
      intro y
      constructor
      · rintro (hy | hy)
        · refine ⟨(hmem y).mpr (Or.inl hy), ?_⟩
          rintro rfl
          exact hdisj y ⟨hy, hv⟩
        · obtain ⟨hne, hy'⟩ := hccn.mem_erase_iff.mp hy
          exact ⟨(hmem y).mpr (Or.inr hy'), hne⟩
      · rintro ⟨hy, hne⟩
        rcases (hmem y).mp hy with h | h
        · exact Or.inl h
        · exact Or.inr ((List.mem_erase_of_ne hne).mpr h)
    have hd1 : ∀ y, ¬(y ∈ s.convex ∧ y ∈ s.concave.erase v) := by
      rintro y ⟨h1', h2'⟩
      exact hdisj y ⟨h1', List.erase_subset _ _ h2'⟩
    obtain ⟨n2a, n2b, m2, d2⟩ := rebucket_spec pos (s.ring.erase v)
      (leftIn s.ring v) s.convex (s.concave.erase v) hcvn (hccn.erase v) hd1
      ((h1 _).mpr ⟨hum, hune⟩)
    obtain ⟨n3a, n3b, m3, d3⟩ := rebucket_spec pos (s.ring.erase v)
      (rightIn s.ring v)
      (rebucket pos (s.ring.erase v) (leftIn s.ring v) s.convex
        (s.concave.erase v)).1
      (rebucket pos (s.ring.erase v) (leftIn s.ring v) s.convex
        (s.concave.erase v)).2
      n2a n2b d2 ((m2 _).mpr ((h1 _).mpr ⟨hwm, hwne⟩))
    have hout : (s.out ++ [(leftIn s.ring v, v, rightIn s.ring v)]).length =
        s.out.length + 1 := by simp
    have hlen' : (s.ring.erase v).length = (s.remaining - 1) + 2 := by
      rw [List.length_erase_of_mem hvr, hlen]
      omega
    have hmem' : ∀ x, x ∈ s.ring.erase v ↔
        (x ∈ (rebucket pos (s.ring.erase v) (rightIn s.ring v)
            (rebucket pos (s.ring.erase v) (leftIn s.ring v) s.convex
              (s.concave.erase v)).1
            (rebucket pos (s.ring.erase v) (leftIn s.ring v) s.convex
              (s.concave.erase v)).2).1 ∨
          x ∈ (rebucket pos (s.ring.erase v) (rightIn s.ring v)
            (rebucket pos (s.ring.erase v) (leftIn s.ring v) s.convex
              (s.concave.erase v)).1
            (rebucket pos (s.ring.erase v) (leftIn s.ring v) s.convex
              (s.concave.erase v)).2).2) := by
      intro x
      have hch := (m3 x).trans ((m2 x).trans (h1 x))
      rw [hrn.mem_erase_iff, hch]
      exact and_comm
    exact ⟨⟨hrn.erase v, n3a, n3b, hmem', d3, hlen'⟩, rfl, hout, rfl⟩
  | true =>
    replace hv : v ∈ s.convex := hv
    have hvr : v ∈ s.ring := (hmem v).mpr (Or.inl hv)
    have hum : leftIn s.ring v ∈ s.ring := leftIn_mem _ _ hvr
    have hwm : rightIn s.ring v ∈ s.ring := rightIn_mem _ _ hvr
    have hune : leftIn s.ring v ≠ v := leftIn_ne _ _ hrn hvr (by omega)
    have hwne : rightIn s.ring v ≠ v := rightIn_ne _ _ hrn hvr (by omega)
    have h1 : ∀ y, (y ∈ s.convex.erase v ∨ y ∈ s.concave) ↔
        (y ∈ s.ring ∧ y ≠ v) := by
      intro y
      constructor
      · rintro (hy | hy)
        · obtain ⟨hne, hy'⟩ := hcvn.mem_erase_iff.mp hy
          exact ⟨(hmem y).mpr (Or.inl hy'), hne⟩
        · refine ⟨(hmem y).mpr (Or.inr hy), ?_⟩
          rintro rfl
          exact hdisj y ⟨hv, hy⟩
      · rintro ⟨hy, hne⟩
        rcases (hmem y).mp hy with h | h
        · exact Or.inl ((List.mem_erase_of_ne hne).mpr h)
        · exact Or.inr h
    have hd1 : ∀ y, ¬(y ∈ s.convex.erase v ∧ y ∈ s.concave) := by
      rintro y ⟨h1', h2'⟩
      exact hdisj y ⟨List.erase_subset _ _ h1', h2'⟩
    obtain ⟨n2a, n2b, m2, d2⟩ := rebucket_spec pos (s.ring.erase v)
      (leftIn s.ring v) (s.convex.erase v) s.concave (hcvn.erase v) hccn hd1
      ((h1 _).mpr ⟨hum, hune⟩)
    obtain ⟨n3a, n3b, m3, d3⟩ := rebucket_spec pos (s.ring.erase v)
      (rightIn s.ring v)
      (rebucket pos (s.ring.erase v) (leftIn s.ring v) (s.convex.erase v)
        s.concave).1
      (rebucket pos (s.ring.erase v) (leftIn s.ring v) (s.convex.erase v)
        s.concave).2
      n2a n2b d2 ((m2 _).mpr ((h1 _).mpr ⟨hwm, hwne⟩))
    have hout : (s.out ++ [(leftIn s.ring v, v, rightIn s.ring v)]).length =
        s.out.length + 1 := by simp
    have hlen' : (s.ring.erase v).length = (s.remaining - 1) + 2 := by
      rw [List.length_erase_of_mem hvr, hlen]
      omega
    have hmem' : ∀ x, x ∈ s.ring.erase v ↔
        (x ∈ (rebucket pos (s.ring.erase v) (rightIn s.ring v)
            (rebucket pos (s.ring.erase v) (leftIn s.ring v)
              (s.convex.erase v) s.concave).1
            (rebucket pos (s.ring.erase v) (leftIn s.ring v)
              (s.convex.erase v) s.concave).2).1 ∨
          x ∈ (rebucket pos (s.ring.erase v) (rightIn s.ring v)
            (rebucket pos (s.ring.erase v) (leftIn s.ring v)
              (s.convex.erase v) s.concave).1
            (rebucket pos (s.ring.erase v) (leftIn s.ring v)
              (s.convex.erase v) s.concave).2).2) := by
      intro x
      have hch := (m3 x).trans ((m2 x).trans (h1 x))
      rw [hrn.mem_erase_iff, hch]
      exact and_comm
    exact ⟨⟨hrn.erase v, n3a, n3b, hmem', d3, hlen'⟩, rfl, hout, rfl⟩

/-- A successful pass clips exactly one ear. -/
theorem clipPass_some (ml : MathOracle) (pos : ℕ → Pt) (s s' : EarState)
    (hInv : EarInv s) (hrem : 1 ≤ s.remaining)
    (h : clipPass ml pos s = some s') :
    EarInv s' ∧ s'.remaining = s.remaining - 1 ∧
      s'.out.length = s.out.length + 1 ∧ s'.iters = 0 := by
  rw [clipPass] at h
  cases hf : (if s.convex.isEmpty then s.concave else s.convex).find?
      (fun v => (s.convex.isEmpty || decide (1 < s.iters)) || isEar ml pos s v) with
  | none => rw [hf] at h; exact absurd h (by simp)
  | some v =>
    rw [hf] at h
    have hv := List.mem_of_find?_eq_some hf
    have hv' : v ∈ (if !s.convex.isEmpty then s.convex else s.concave) := by
      by_cases hE : s.convex.isEmpty <;> simp only [hE] at hv ⊢ <;> simpa using hv
    have h' := clip_inv pos s v (!s.convex.isEmpty) hInv hrem hv'
    have hc : clip pos s v (!s.convex.isEmpty) = s' := by
      injection h
    rw [← hc]
    exact h'

/-- A stalled pass can only happen with convex vertices left and at most one
earlier stall; otherwise the test is skipped and the first vertex of a
nonempty set is clipped. -/
theorem clipPass_none (ml : MathOracle) (pos : ℕ → Pt) (s : EarState)
    (hInv : EarInv s) (hrem : 1 ≤ s.remaining)
    (h : clipPass ml pos s = none) : ¬s.convex.isEmpty = true ∧ s.iters ≤ 1 := by
  obtain ⟨hrn, hcvn, hccn, hmem, hdisj, hlen⟩ := hInv
  have hring : s.ring ≠ [] := by
    intro he
    rw [he] at hlen
    simp at hlen
  obtain ⟨x, hx⟩ := List.exists_mem_of_ne_nil s.ring hring
  rw [clipPass] at h
  by_cases hE : s.convex.isEmpty
  · exfalso
    have hcc : s.concave ≠ [] := by
      rcases (hmem x).mp hx with hc | hc
      · rw [List.isEmpty_iff] at hE
        rw [hE] at hc
        exact absurd hc (by simp)
      · exact List.ne_nil_of_mem hc
    obtain ⟨y, ys, hy⟩ : ∃ y ys, s.concave = y :: ys := by
      cases hcase : s.concave with
      | nil => exact absurd hcase hcc
      | cons a as => exact ⟨a, as, rfl⟩
    rw [hE] at h
    simp only [if_true, Bool.true_or, hy] at h
    rw [List.find?_cons_of_pos _ rfl] at h
    exact absurd h (by simp)
  · refine ⟨hE, ?_⟩
    by_contra hit
    push_neg at hit
    have hdec : decide (1 < s.iters) = true := decide_eq_true (by omega)
    have hcv : s.convex ≠ [] := fun he => hE (by simp [he])
    obtain ⟨y, ys, hy⟩ : ∃ y ys, s.convex = y :: ys := by
      cases hcase : s.convex with
      | nil => exact absurd hcase hcv
      | cons a as => exact ⟨a, as, rfl⟩
    rw [if_neg hE] at h
    simp only [hdec, Bool.or_true, Bool.true_or, hy] at h
    rw [List.find?_cons_of_pos _ rfl] at h
    exact absurd h (by simp)

/-- Main induction: with the invariant and enough fuel, the ear-clipping
loop terminates and emits exactly `remaining` more triangles. -/
theorem earRun_spec (ml : MathOracle) (pos : ℕ → Pt) :
    ∀ (fuel : ℕ) (s : EarState), EarInv s → earBound s ≤ fuel →
      ∃ s', earRun ml pos fuel s = some s' ∧
        s'.out.length = s.out.length + s.remaining := by
  intro fuel
  induction fuel with
  | zero =>
    intro s hInv hb
    exfalso
    rw [earBound] at hb
    omega
  | succ f ih =>
    intro s hInv hb
    rw [earRun]
    by_cases hr : s.remaining = 0
    · rw [if_pos hr]
      exact ⟨s, rfl, by omega⟩
    · have hrem : 1 ≤ s.remaining := Nat.one_le_iff_ne_zero.mpr hr
      rw [if_neg hr]
      cases hcp : clipPass ml pos s with
      | some s' =>
        obtain ⟨hInv', hrem', hout', hit'⟩ := clipPass_some ml pos s s' hInv hrem hcp
        have hb' : earBound s' ≤ f := by
          rw [earBound] at hb ⊢
          rw [hrem', hit']
          omega
        obtain ⟨s'', h1, h2⟩ := ih s' hInv' hb'
        refine ⟨s'', h1, ?_⟩
        rw [h2, hout', hrem']
        omega
      | none =>
        obtain ⟨hcv, hit⟩ := clipPass_none ml pos s hInv hrem hcp
        have hb' : earBound { s with iters := s.iters + 1 } ≤ f := by
          rw [earBound] at hb ⊢
          simp only
          omega
        have hInv2 : EarInv { s with iters := s.iters + 1 } := hInv
        obtain ⟨s'', h1, h2⟩ := ih { s with iters := s.iters + 1 } hInv2 hb'
        exact ⟨s'', h1, by simpa using h2⟩

/-- The initial ear-clipping state satisfies the invariant. -/
theorem initEarState_inv (pos : ℕ → Pt) (n : ℕ) (h3 : 3 ≤ n) :
    EarInv (initEarState pos n) := by
  refine ⟨List.nodup_range n, (List.nodup_range n).filter _,
    (List.nodup_range n).filter _, ?_, ?_, ?_⟩
  · intro x
    constructor
    · intro hx
      by_cases hc : convexAt pos (List.range n) x
      · exact Or.inl (List.mem_filter.mpr ⟨hx, hc⟩)
      · exact Or.inr (List.mem_filter.mpr ⟨hx, by simpa using hc⟩)
    · rintro (hx | hx) <;> exact (List.mem_filter.mp hx).1
  · rintro x ⟨h1, h2⟩
    have hb1 := (List.mem_filter.mp h1).2
    have hb2 := (List.mem_filter.mp h2).2
    simp [hb1] at hb2
  · rw [show (initEarState pos n).ring = List.range n from rfl, List.length_range,
      show (initEarState pos n).remaining = n - 2 from rfl]
    omega

/-- C2: for every ring of n >= 3 tessellated boundary vertices (in
particular the simple-polygon case), the ear-clipping loop of
`Shape.populateBuffers` terminates within its 3n-pass bound and emits
exactly n - 2 index triples, which matches the triangle count
`Shape.updateStats` reserves for the 5n tessellated buffer vertices of the
exterior. -/
theorem c2_ear_clipping_triangle_count (ml : MathOracle) (positions : List Pt)
    (h3 : 3 ≤ positions.length) :
    (triangulateShape ml positions).map List.length =
        some (positions.length - 2) ∧
      ((positions.length : ℚ) - 2) =
        shapeStatsTriangleCount (5 * positions.length) := by
  constructor
  · rw [triangulateShape]
    obtain ⟨s', h1, h2⟩ := earRun_spec ml (fun i => positions.getD i (0, 0))
      (3 * positions.length)
      (initEarState (fun i => positions.getD i (0, 0)) positions.length)
      (initEarState_inv _ _ h3)
      (by
        rw [earBound, show (initEarState (fun i => positions.getD i (0, 0))
          positions.length).remaining = positions.length - 2 from rfl,
          show (initEarState (fun i => positions.getD i (0, 0))
          positions.length).iters = 0 from rfl]
        omega)
    rw [h1]
    show some s'.out.length = some (positions.length - 2)
    rw [h2, show (initEarState (fun i => positions.getD i (0, 0))
      positions.length).remaining = positions.length - 2 from rfl,
      show (initEarState (fun i => positions.getD i (0, 0))
      positions.length).out = [] from rfl]
    simp
  · rw [shapeStatsTriangleCount,
      mul_div_cancel_left₀ _ (by norm_num : (5 : ℚ) ≠ 0)]

/-- Witness for C2: the unit-square ring of 4 boundary vertices yields
4 - 2 = 2 triangles, matching the stats reservation for 20 buffer
vertices. -/
theorem c2_ear_clipping_witness :
    3 ≤ ([((0 : ℚ), (0 : ℚ)), (1, 0), (1, 1), (0, 1)] : List Pt).length ∧
      (triangulateShape mathDemo [((0 : ℚ), (0 : ℚ)), (1, 0), (1, 1), (0, 1)]).map
          List.length =
          some (([((0 : ℚ), (0 : ℚ)), (1, 0), (1, 1), (0, 1)] : List Pt).length - 2) ∧
        ((([((0 : ℚ), (0 : ℚ)), (1, 0), (1, 1), (0, 1)] : List Pt).length : ℚ) - 2) =
          shapeStatsTriangleCount
            (5 * ([((0 : ℚ), (0 : ℚ)), (1, 0), (1, 1), (0, 1)] : List Pt).length) :=
  ⟨by simp, c2_ear_clipping_triangle_count mathDemo
    [((0 : ℚ), (0 : ℚ)), (1, 0), (1, 1), (0, 1)] (by simp)⟩

/-- A JavaScript number that may be non-finite: `none` stands for NaN or
positive/negative Infinity (the embedding does not distinguish them because
the source only ever tests `isFiniteVector`). -/
abbrev JsQ := Option ℚ

/-- Addition with non-finite propagation. -/
def jsAdd : JsQ → JsQ → JsQ
  | some a, some b => some (a + b)
  | _, _ => none

/-- Subtraction with non-finite propagation. -/
def jsSub : JsQ → JsQ → JsQ
  | some a, some b => some (a - b)
  | _, _ => none

/-- Multiplication with non-finite propagation. -/
def jsMul : JsQ → JsQ → JsQ
  | some a, some b => some (a * b)
  | _, _ => none

/-- math.js `planeIntersection` (lines 795-814) followed by the caller's
`isFiniteVector` check collapsed into an `Option`: a zero divisor makes both
components non-finite in JavaScript (x/0 is NaN or Infinity), and a
non-finite plane constant propagates into both components; in every other
case the result is the finite intersection point.  The normals are always
finite here (they are built by `orthonormalize` from finite buffer reads),
so only the constants carry `JsQ`. -/
def planeIntersectionJs (n1 : Pt) (c1 : JsQ) (n2 : Pt) (c2 : JsQ) : Option Pt :=
  match c1, c2 with
  | some a, some b =>
    let divisor := n1.1 * n2.2 - n1.2 * n2.1
    if divisor = 0 then none
    else some ((n1.2 * b - n2.2 * a) / divisor, (n2.1 * a - n1.1 * b) / divisor)
  | _, _ => none

/-- One block of the vector-attribute pass of `Path.populateBuffers`
(part_003 lines 230-343), producing the 5 (edge) or 8 (thick) vector values
written for the vertices starting at `vertexOffset`.  Buffer reads go
through `vec2`, whose default parameters turn an out-of-range `undefined`
read into 0 (math.js lines 289-296), hence `getD` with default (0, 0).
`distance = 1.0 / max(cos(halfAngle), sin(halfAngle))` is non-finite when
the max is 0, and the miter points fall back to the perpendicular offset
when the plane intersection is non-finite. -/
def vectorPassBlock (ml : MathOracle) (loopF edgeF : Bool) (verts : List Pt)
    (vo : ℕ) : List (JsQ × JsQ) :=
  let vc := verts.length
  let span := if edgeF then 5 else 8
  let read := fun i => verts.getD i ((0 : ℚ), (0 : ℚ))
  let from0 := read vo
  let to0 := read (vo + span - 1)
  let nextIdx := if loopF then (vo + span * 2) % vc else min (vo + span * 2) (vc - 1)
  let next0 := read nextIdx
  let vector := orthonormalize ml (minus to0 from0)
  let fromToPlane := planeFromPoints ml from0 to0
  let toNextPlane := planeFromPoints ml to0 next0
  let fromNextNormal := orthonormalize ml (minus next0 from0)
  let fromNextPlane := planeFromPointNormal to0 fromNextNormal
  let angle := ml.acos (dot fromToPlane.normal toNextPlane.normal)
  let halfAngle := angle * (1 / 2)
  let mx := max (ml.cos halfAngle) (ml.sin halfAngle)
  let dist : JsQ := if mx = 0 then none else some (1 / mx)
  let c1 : JsQ := some (fromToPlane.constant + 1)
  let c2 : JsQ := some (toNextPlane.constant + 1)
  let c3 : JsQ := jsAdd (some fromNextPlane.constant) dist
  let p1 : Pt := match planeIntersectionJs fromToPlane.normal c1 fromNextNormal c3 with
    | some p => p
    | none => minus to0 vector
  let p2 : Pt := match planeIntersectionJs toNextPlane.normal c2 fromNextNormal c3 with
    | some p => p
    | none => minus to0 vector
  if edgeF then
    [((some 0, some 0) : JsQ × JsQ),
      (some vector.1, some vector.2),
      (some vector.1, some vector.2),
      (some (to0.1 - p1.1), some (to0.2 - p1.2)),
      (some (to0.1 - p2.1), some (to0.2 - p2.2))]
  else
    let c1x : JsQ := jsSub c1 (some 2)
    let c2x : JsQ := jsSub c2 (some 2)
    let c3x : JsQ := jsSub c3 (jsMul (some 2) dist)
    let q1 : Pt := match planeIntersectionJs fromToPlane.normal c1x fromNextNormal c3x with
      | some p => p
      | none => plus to0 vector
    let q2 : Pt := match planeIntersectionJs toNextPlane.normal c2x fromNextNormal c3x with
      | some p => p
      | none => plus to0 vector
    [((some (-vector.1), some (-vector.2)) : JsQ × JsQ),
      (some vector.1, some vector.2),
      (some vector.1, some vector.2),
      (some (to0.1 - p1.1), some (to0.2 - p1.2)),
      (some (to0.1 - p2.1), some (to0.2 - p2.2)),
      (some (-vector.1), some (-vector.2)),
      (some (to0.1 - q1.1), some (to0.2 - q1.2)),
      (some (to0.1 - q2.1), some (to0.2 - q2.2))]

/-- The vector-attribute pass of `Path.populateBuffers` over a path whose
tessellated vertex positions are `verts` (the path's first vertex is taken
as buffer origin): one block per `vertexSpan` stride below `vertexCount`. -/
def vectorPass (ml : MathOracle) (loopF edgeF : Bool) (verts : List Pt) :
    List (JsQ × JsQ) :=
  let span := if edgeF then 5 else 8
  ((List.range ((verts.length + span - 1) / span)).map (· * span)).flatMap
    (vectorPassBlock ml loopF edgeF verts)

/-- C7: for every path with finite command points (hence finite tessellated
positions; out-of-range reads default to 0 through `vec2`), every vector
value emitted by the miter pass is finite: whenever a miter
plane-intersection result is non-finite, the simple perpendicular-offset
fallback point is written instead, so no NaN or Infinity reaches the vertex
buffer — including for two collinear-reversed spans (a 180-degree turn),
where the intersection divisor is 0. -/
theorem c7_vector_pass_finite (ml : MathOracle) (loopF edgeF : Bool)
    (verts : List Pt) :
    (vectorPass ml loopF edgeF verts).all
        (fun w => w.1.isSome && w.2.isSome) = true := by
  rw [List.all_eq_true]
  intro w hw
  rw [vectorPass] at hw
  obtain ⟨vo, hvo, hw⟩ := List.mem_flatMap.mp hw
  rw [vectorPassBlock] at hw
  cases edgeF with
  | true =>
    simp only [if_true, List.mem_cons, List.not_mem_nil, or_false] at hw
    rcases hw with rfl | rfl | rfl | rfl | rfl <;> rfl
  | false =>
    simp only [Bool.false_eq_true, if_false, List.mem_cons, List.not_mem_nil,
      or_false] at hw
    rcases hw with rfl | rfl | rfl | rfl | rfl | rfl | rfl | rfl <;> rfl

/-- Modelled from the spec: `util.getValue(value, defaultValue)` is imported
by geometry.js but the util module is missing from src; per the spec's
"applying documented defaults for every optional field" it returns the value
when present and the default otherwise. -/
def getValue (v : Option ℚ) (d : ℚ) : ℚ := v.getD d

/-- A bounds accumulator component that starts at the non-finite sentinel of
`emptyBounds` (math.js lines 893-899): `none` is the initial `Infinity` of a
min component or `-Infinity` of a max component, and becomes `some` on the
first `addToBounds` update (`Math.min(Infinity, x) = x`,
`Math.max(-Infinity, x) = x`). -/
def jsMinAcc : Option ℚ → ℚ → Option ℚ
  | none, x => some x
  | some a, x => some (min a x)

/-- Max-component counterpart of `jsMinAcc` (`none` = `-Infinity`). -/
def jsMaxAcc : Option ℚ → ℚ → Option ℚ
  | none, x => some x
  | some a, x => some (max a x)

/-- math.js `Bounds` `{min, max}` with the components in accumulator form. -/
structure BoundsQ where
  minX : Option ℚ
  minY : Option ℚ
  maxX : Option ℚ
  maxY : Option ℚ

/-- math.js `emptyBounds()`: min at `(Infinity, Infinity)`, max at
`(-Infinity, -Infinity)`. -/
def emptyBoundsQ : BoundsQ := ⟨none, none, none, none⟩

/-- math.js `addToBoundsEquals(bounds, x, y)` = `addToBounds` in place
(lines 1012-1029, 1042-1048). -/
def addToBoundsEqualsQ (b : BoundsQ) (x y : ℚ) : BoundsQ :=
  { minX := jsMinAcc b.minX x
    minY := jsMinAcc b.minY y
    maxX := jsMaxAcc b.maxX x
    maxY := jsMaxAcc b.maxY y }

/-- `ComponentGeometry.rectangle.addToBounds` (geometry.js lines 127-134):
expand the bounds by `(-halfWidth, -halfHeight)` and
`(halfWidth, halfHeight)` and return the thickness, with defaults
thickness 0.2, width 5, height 5. -/
def rectAddToBounds (dataThickness dataWidth dataHeight : Option ℚ)
    (b : BoundsQ) : BoundsQ × ℚ :=
  let thickness := getValue dataThickness (1 / 5)
  let halfWidth := getValue dataWidth 5 * (1 / 2)
  let halfHeight := getValue dataHeight 5 * (1 / 2)
  (addToBoundsEqualsQ (addToBoundsEqualsQ b (-halfWidth) (-halfHeight))
    halfWidth halfHeight, thickness)

/-- Set one key of an insertion-ordered attribute map, appending a missing
key: one step of JavaScript `Object.assign` onto a plain-object map. -/
def assocSet : Attrs → String → AttrValue → Attrs
  | [], n, v => [(n, v)]
  | (k, w) :: rest, n, v =>
    if k = n then (k, v) :: rest else (k, w) :: assocSet rest n v

/-- `Object.assign(target, source)` on attribute maps. -/
def attrsAssign (target src : Attrs) : Attrs :=
  src.foldl (fun t nv => assocSet t nv.1 nv.2) target

/-- A `Path` object: its `loop` flag (`false` on construction, part_003
lines 62-75) and its command list. -/
structure PathRec where
  loop : Bool
  cmds : List PathCommand

/-- The `ShapeList` turtle state (part_003 lines 1070-1084): accumulated
shapes (each represented by its wrapped path) and paths, the turtle
position, rotation, z order and attribute map, and the path currently being
drawn (`_drawingPath`), tagged with whether `penDown` pushed it into
`shapes` (true) or `paths` (false).  In JavaScript the drawing path is
already inside the destination array and is mutated in place; here it is
kept apart while it can still grow, and the views below append it at its
place at the end of its array. -/
structure Turtle where
  shapes : List PathRec
  paths : List PathRec
  position : Pt
  rotation : ℚ
  zOrder : ℚ
  attributes : Attrs
  drawing : Option (Bool × PathRec)

/-- The `shapes` array as JavaScript sees it. -/
def Turtle.shapesView (t : Turtle) : List PathRec :=
  t.shapes ++ (match t.drawing with | some (true, p) => [p] | _ => [])

/-- The `paths` array as JavaScript sees it. -/
def Turtle.pathsView (t : Turtle) : List PathRec :=
  t.paths ++ (match t.drawing with | some (false, p) => [p] | _ => [])

/-- `new ShapeList()`. -/
def newShapeList : Turtle :=
  { shapes := [], paths := [], position := (0, 0), rotation := 0, zOrder := 0
    attributes := [], drawing := none }

/-- math.js `radians(value)` = `value * Math.PI / 180`, with the
transcendental constant `Math.PI` passed in as `piv`. -/
def radiansQ (piv value : ℚ) : ℚ := value * piv / 180

/-- Apply a command-list builder to the drawing path, if any. -/
def Turtle.drawTo (t : Turtle) (f : List PathCommand → List PathCommand) :
    Turtle :=
  match t.drawing with
  | some (k, p) => { t with drawing := some (k, { p with cmds := f p.cmds }) }
  | none => t

/-- `ShapeList.rotate(angle)` (part_003 lines 1102-1105). -/
def Turtle.rotate (t : Turtle) (angle : ℚ) : Turtle :=
  { t with rotation := t.rotation + angle }

/-- `ShapeList.pivot(angle)` (part_003 lines 1092-1094):
`rotate(radians(angle))`. -/
def Turtle.pivot (piv : ℚ) (t : Turtle) (angle : ℚ) : Turtle :=
  t.rotate (radiansQ piv angle)

/-- `ShapeList.advance(distance, attributes?)` (part_003 lines 1114-1127):
move along the heading, merge the optional attributes into the turtle map,
and `lineTo` the new position if the pen is down. -/
def Turtle.advance (ml : MathOracle) (t : Turtle) (dist : ℚ)
    (attrs : Option Attrs) : Turtle :=
  let pos : Pt := (t.position.1 + dist * ml.cos t.rotation,
    t.position.2 + dist * ml.sin t.rotation)
  let a := match attrs with
    | some m => attrsAssign t.attributes m
    | none => t.attributes
  let t := { t with position := pos, attributes := a }
  t.drawTo (fun cmds => pathLineTo cmds pos t.zOrder t.attributes)

/-- Modelled from the spec: `ShapeList.move(x, y, rotation?, attributes?)`
is called by every geometry.js `createShapeList` but is missing from the src
ShapeList (which has only the equivalent `jump`, part_003 lines 1135-1156);
per the spec's turtle contract, it sets the absolute position, optionally
the rotation and attributes, and appends to the active path if one exists
(at geometry.js's call sites the pen is always up). -/
def Turtle.move (t : Turtle) (x y : ℚ) (rotation : Option ℚ)
    (attrs : Option Attrs) : Turtle :=
  let r := match rotation with | some v => v | none => t.rotation
  let a := match attrs with
    | some m => attrsAssign t.attributes m
    | none => t.attributes
  let t := { t with position := (x, y), rotation := r, attributes := a }
  t.drawTo (fun cmds => pathLineTo cmds (x, y) t.zOrder t.attributes)

/-- `ShapeList.penDown(shape?, attributes?)` (part_003 lines 1262-1274):
start a `new Path()` (loop = false), push it into `shapes` (wrapped in a
Shape) when `shape` is true, into `paths` otherwise, and `moveTo` the
current position with the turtle attributes.  Modelled from the spec: the
`attributes` parameter merged into the turtle map, present at geometry.js's
call sites (`.penDown(fill, {thickness})`), is missing from the src version
of the method. -/
def Turtle.penDown (t : Turtle) (shape : Bool) (attrs : Option Attrs) :
    Turtle :=
  let a := match attrs with
    | some m => attrsAssign t.attributes m
    | none => t.attributes
  let p : PathRec :=
    { loop := false, cmds := pathMoveTo [] t.position t.zOrder a }
  { t with attributes := a, drawing := some (shape, p) }

/-- `ShapeList.penUp(closeLoop?)` (part_003 lines 1283-1291): set the
drawing path's loop flag when `closeLoop` is given, and stop drawing. -/
def Turtle.penUp (t : Turtle) (closeLoop : Option Bool) : Turtle :=
  match t.drawing with
  | none => t
  | some (k, p) =>
    let p := match closeLoop with | some b => { p with loop := b } | none => p
    if k then { t with shapes := t.shapes ++ [p], drawing := none }
    else { t with paths := t.paths ++ [p], drawing := none }

/-- `ComponentGeometry.rectangle.createShapeList` (geometry.js lines
135-151): move to `(-width/2, -height/2)`, pen down with the thickness
attribute, then advance-pivot around the four sides — with no `penUp`
anywhere, so the drawing path keeps its construction-time
`loop = false`. -/
def rectCreateShapeList (ml : MathOracle) (piv : ℚ)
    (dataThickness dataWidth dataHeight : Option ℚ) (dataFill : Option Bool) :
    Turtle :=
  let thickness := getValue dataThickness (1 / 5)
  let width := getValue dataWidth 5
  let height := getValue dataHeight 5
  let fill := dataFill.getD false
  let t0 := newShapeList
  let t1 := Turtle.move t0 (width * -(1 / 2)) (height * -(1 / 2)) none none
  let t2 := Turtle.penDown t1 fill
    (some [("thickness", AttrValue.num thickness)])
  let t3 := Turtle.advance ml t2 width none
  let t4 := Turtle.pivot piv t3 90
  let t5 := Turtle.advance ml t4 height none
  let t6 := Turtle.pivot piv t5 90
  let t7 := Turtle.advance ml t6 width none
  let t8 := Turtle.pivot piv t7 90
  Turtle.advance ml t8 height none

/-- A concrete oracle for the rectangle build, honest at the four headings
the turtle visits when `Math.PI` is replaced by the rational 3.14 (so a
quarter turn is 1.57): cos/sin of 0, 1.57, 3.14 and 4.71 are the exact
values of the real functions at the corresponding multiples of pi/2. -/
def mathTurtle : MathOracle where
  cos := fun q =>
    if q = 0 then 1 else if q = 157 / 100 then 0
    else if q = 157 / 50 then -1 else 0
  sin := fun q =>
    if q = 0 then 0 else if q = 157 / 100 then 1
    else if q = 471 / 100 then -1 else 0
  sqrt := fun _ => 0
  asin := fun _ => 0
  acos := fun _ => 0

/-- C9 counterexample: `rectangle.createShapeList({width: 4, height: 2,
fill: false})` yields one non-filled path, but that path is NOT marked as a
closed loop: `createShapeList` never calls `penUp`, so the path keeps the
`loop = false` it was constructed with, against the claim's "marked as a
closed loop". -/
theorem c9_counterexample :
    (Turtle.pathsView
        (rectCreateShapeList mathTurtle (157 / 50) none (some 4) (some 2)
          (some false))).map PathRec.loop = [false] := by
  rfl

/-- C9 (amended): `rectangle.createShapeList({width: 4, height: 2,
fill: false})` yields a ShapeList with no shapes and exactly one non-filled
path whose loop flag is `false` (not a closed loop: `penUp` is never
called), holding a MoveTo at `(-2, -1)` followed by four LineTo commands
through `(2, -1)`, `(2, 1)`, `(-2, 1)` and back to `(-2, -1)` (4 corners,
the last destination repeating the first), each carrying the thickness
attribute 0.2; and `rectangle.addToBounds` on empty bounds with the same
data produces exactly `{min: (-2, -1), max: (2, 1)}` and returns the
default thickness 0.2.  Stated for every oracle and every rational stand-in
`piv` for `Math.PI` whose cos/sin agree with the real functions at the four
headings 0, 90, 180, 270 degrees. -/
theorem c9_rectangle_build (ml : MathOracle) (piv : ℚ)
    (hc0 : ml.cos 0 = 1) (hs0 : ml.sin 0 = 0)
    (hc1 : ml.cos (radiansQ piv 90) = 0) (hs1 : ml.sin (radiansQ piv 90) = 1)
    (hc2 : ml.cos (2 * radiansQ piv 90) = -1)
    (hs2 : ml.sin (2 * radiansQ piv 90) = 0)
    (hc3 : ml.cos (3 * radiansQ piv 90) = 0)
    (hs3 : ml.sin (3 * radiansQ piv 90) = -1) :
    Turtle.shapesView
        (rectCreateShapeList ml piv none (some 4) (some 2) (some false))
      = [] ∧
    Turtle.pathsView
        (rectCreateShapeList ml piv none (some 4) (some 2) (some false))
      = [{ loop := false
           cmds := [
            .moveTo (-2, -1) 0 [("thickness", .num (1 / 5))],
            .lineTo (2, -1) 0 [("thickness", .num (1 / 5))],
            .lineTo (2, 1) 0 [("thickness", .num (1 / 5))],
            .lineTo (-2, 1) 0 [("thickness", .num (1 / 5))],
            .lineTo (-2, -1) 0 [("thickness", .num (1 / 5))]] }] ∧
    rectAddToBounds none (some 4) (some 2) emptyBoundsQ =
      ({ minX := some (-2), minY := some (-1), maxX := some 2, maxY := some 1 },
        1 / 5) := by
  have e1 : (0 : ℚ) + radiansQ piv 90 = radiansQ piv 90 := by ring
  have e2 : radiansQ piv 90 + radiansQ piv 90 = 2 * radiansQ piv 90 := by
    ring
  have e3 : 2 * radiansQ piv 90 + radiansQ piv 90 = 3 * radiansQ piv 90 := by
    ring
  refine ⟨?_, ?_, ?_⟩
  · simp only [rectCreateShapeList, newShapeList, getValue, Option.getD,
      Turtle.move, Turtle.penDown, Turtle.advance, Turtle.pivot, Turtle.rotate,
      Turtle.drawTo, Turtle.shapesView, attrsAssign, assocSet, List.foldl,
      pathMoveTo, pathLineTo, ensureStartPosition, List.isEmpty,
      List.nil_append, List.cons_append, e1, e2, e3]
  · simp only [rectCreateShapeList, newShapeList, getValue, Option.getD,
      Turtle.move, Turtle.penDown, Turtle.advance, Turtle.pivot, Turtle.rotate,
      Turtle.drawTo, Turtle.pathsView, attrsAssign, assocSet, List.foldl,
      pathMoveTo, pathLineTo, ensureStartPosition, List.isEmpty,
      List.nil_append, List.cons_append, e1, e2, e3, hc0, hs0, hc1, hs1,
      hc2, hs2, hc3, hs3]
    norm_num
  · simp only [rectAddToBounds, emptyBoundsQ, addToBoundsEqualsQ, jsMinAcc,
      jsMaxAcc, getValue, Option.getD]
    norm_num [min_def, max_def]

/-- Closed instance of the C9 amended theorem at the concrete oracle
`mathTurtle` with pi-value 3.14. -/
theorem c9_rectangle_build_witness :
    Turtle.shapesView
        (rectCreateShapeList mathTurtle (157 / 50) none (some 4) (some 2)
          (some false))
      = [] ∧
    Turtle.pathsView
        (rectCreateShapeList mathTurtle (157 / 50) none (some 4) (some 2)
          (some false))
      = [{ loop := false
           cmds := [
            .moveTo (-2, -1) 0 [("thickness", .num (1 / 5))],
            .lineTo (2, -1) 0 [("thickness", .num (1 / 5))],
            .lineTo (2, 1) 0 [("thickness", .num (1 / 5))],
            .lineTo (-2, 1) 0 [("thickness", .num (1 / 5))],
            .lineTo (-2, -1) 0 [("thickness", .num (1 / 5))]] }] ∧
    rectAddToBounds none (some 4) (some 2) emptyBoundsQ =
      ({ minX := some (-2), minY := some (-1), maxX := some 2, maxY := some 1 },
        1 / 5) :=
  c9_rectangle_build mathTurtle (157 / 50)
    (by norm_num [mathTurtle]) (by norm_num [mathTurtle])
    (by norm_num [mathTurtle, radiansQ]) (by norm_num [mathTurtle, radiansQ])
    (by norm_num [mathTurtle, radiansQ]) (by norm_num [mathTurtle, radiansQ])
    (by norm_num [mathTurtle, radiansQ]) (by norm_num [mathTurtle, radiansQ])

end Phantasml
